import Mathlib

set_option linter.unusedVariables false

namespace Graft

/-- Shallow embedding of the `go/types` type handles consumed by the planner.
Named record types are represented by name and resolved through a `TypeEnv`,
which makes cyclic record graphs (A contains `*B`, B contains `*A`)
representable.  Scalars (`int`, `string`, named scalars, `error`) are opaque. -/
inductive GoType where
  | scalar : String → GoType
  | named : String → GoType
  | ptr : GoType → GoType
  | slice : GoType → GoType
  | array : Nat → GoType → GoType
  | gomap : GoType → GoType → GoType
  deriving DecidableEq, Repr

/-- `types.TypeString`: the canonical string rendering used for registry and
memo keys (package qualification is not modelled; names are taken as already
qualified). -/
def typeString : GoType → String
  | .scalar s => s
  | .named n => n
  | .ptr t => "*" ++ typeString t
  | .slice t => "[]" ++ typeString t
  | .array n t => "[" ++ toString n ++ "]" ++ typeString t
  | .gomap k v => "map[" ++ typeString k ++ "]" ++ typeString v

/-- A struct field as the Type Model exposes it: name, exportedness, type and
the parsed annotation map (`map`, `mapsrc`, `mapfn` keys). -/
structure FieldDef where
  name : String
  exported : Bool
  ty : GoType
  tag : List (String × String) := []
  deriving DecidableEq, Repr

/-- Underlying struct definition of a named record type. -/
structure StructDef where
  fields : List FieldDef
  deriving DecidableEq, Repr

/-- The read-only type model: named record types with their field lists. -/
abbrev TypeEnv := List (String × StructDef)

def lookupStructDef (env : TypeEnv) (n : String) : Option StructDef :=
  (env.find? (fun p => p.1 == n)).map (·.2)

/-- `underlyingStruct`: returns the struct definition and whether the handle
was a pointer to it (source `generator.go`). -/
def underlyingStruct (env : TypeEnv) : GoType → Option (StructDef × Bool)
  | .ptr (.named n) => (lookupStructDef env n).map (fun s => (s, true))
  | .named n => (lookupStructDef env n).map (fun s => (s, false))
  | _ => none

/-- `isStructLike`: underlying type is a struct (pointers are not struct-like). -/
def isStructLike (env : TypeEnv) : GoType → Bool
  | .named n => (lookupStructDef env n).isSome
  | _ => false

/-- `isCollectionLike` (source `generator.go`). -/
def isCollectionLike : GoType → Bool
  | .slice _ => true
  | .array _ _ => true
  | .gomap _ _ => true
  | _ => false

/-- `isErrorType`: the universe `error` type. -/
def isErrorType (t : GoType) : Bool := t == .scalar "error"

/-- `g.zeroValue` (source `generator.go`). -/
def zeroValue : GoType → String
  | .ptr _ => "nil"
  | t => typeString t ++ "\x7b\x7d"

/-- IR node kinds (source `nodeKind*` constants). -/
inductive NodeKind where
  | comment | ifNilReturn | destInit | assignDirect | assignCast | assignHelper
  | assignMethod | assignFunc | sliceMap | arrayMap | mapMap | ptrStructMap
  | ptrMethodMap | ptrFuncMap | ret | unsupported
  deriving DecidableEq, Repr

/-- The scalar fields of a `codeNode`; unset fields keep their Go zero value. -/
structure NodeData where
  kind : NodeKind
  dest : String := ""
  src : String := ""
  castType : String := ""
  method : String := ""
  arg : String := ""
  helper : String := ""
  destTypeS : String := ""
  elemTypeS : String := ""
  srcTypeS : String := ""
  comment : String := ""
  expr : String := ""
  varName : String := ""
  zero : String := ""
  withError : Bool := false
  useContext : Bool := false
  loopWithError : Bool := false
  deriving DecidableEq, Repr

/-- A `codeNode`: scalar data plus nested child nodes (`Children`). -/
inductive CodeNode where
  | mk : NodeData → List CodeNode → CodeNode

def CodeNode.data : CodeNode → NodeData
  | .mk d _ => d

def CodeNode.children : CodeNode → List CodeNode
  | .mk _ c => c

mutual

def decEqCodeNode : (a b : CodeNode) → Decidable (a = b)
  | .mk d c, .mk d2 c2 =>
    match decEq d d2, decEqCodeNodeList c c2 with
    | isTrue h1, isTrue h2 => isTrue (by rw [h1, h2])
    | isFalse h1, _ => isFalse (by intro h; cases h; exact h1 rfl)
    | isTrue _, isFalse h2 => isFalse (by intro h; cases h; exact h2 rfl)

def decEqCodeNodeList : (a b : List CodeNode) → Decidable (a = b)
  | [], [] => isTrue rfl
  | [], _ :: _ => isFalse (by intro h; cases h)
  | _ :: _, [] => isFalse (by intro h; cases h)
  | x :: xs, y :: ys =>
    match decEqCodeNode x y, decEqCodeNodeList xs ys with
    | isTrue h1, isTrue h2 => isTrue (by rw [h1, h2])
    | isFalse h1, _ => isFalse (by intro h; injection h; contradiction)
    | isTrue _, isFalse h2 => isFalse (by intro h; injection h; contradiction)

end

instance : DecidableEq CodeNode := decEqCodeNode

/-- Registry entry kinds (source `registryKind`). -/
inductive RegKind where
  | interfaceMethod | customFunc
  deriving DecidableEq, Repr

/-- `registryEntry`: a mapping provider already able to convert a type pair. -/
structure RegEntry where
  name : String
  hasError : Bool
  kind : RegKind
  deriving DecidableEq, Repr

abbrev Registry := List (String × RegEntry)

def lookupReg (r : Registry) (k : String) : Option RegEntry :=
  (r.find? (fun p => p.1 == k)).map (·.2)

/-- Signature of a declared free function, for `scope.Lookup` during `mapfn`
resolution. -/
structure FuncSig where
  name : String
  params : List GoType
  results : List GoType
  deriving DecidableEq, Repr

abbrev Scope := List FuncSig

def scopeLookup (sc : Scope) (n : String) : Option FuncSig :=
  sc.find? (fun f => f.name == n)

/-- `helperPlan`: planning record reserved before population (source
`generator.go`). -/
structure HelperPlan where
  name : String
  srcGoType : GoType
  destGoType : GoType
  srcIsPtr : Bool := false
  destIsPtr : Bool := false
  underDestType : String := ""
  zeroReturn : String := ""
  customFuncName : String := ""
  customFuncHasError : Bool := false
  populated : Bool := false
  composite : Bool := false
  deriving DecidableEq, Repr

/-- `helperModel`: a populated helper handed to the emitter. -/
structure HelperModel where
  name : String
  srcTypeS : String
  destTypeS : String
  srcIsPtr : Bool := false
  destIsPtr : Bool := false
  underDestType : String := ""
  zeroReturn : String := ""
  body : List CodeNode := []
  hasError : Bool := false
  deriving DecidableEq

/-- Read-only planning environment: the type model, the provider registry, the
package scope, and the Type Model's assignability oracle
(`types.AssignableTo`, an external collaborator of the core). -/
structure GenEnv where
  env : TypeEnv
  registry : Registry
  scope : Scope
  assignable : GoType → GoType → Bool

/-- Mutable generator state threaded through planning (`g.helperNames`,
`g.helperPlans`, `g.helperModels`). -/
structure GenState where
  helperNames : List (String × String) := []
  helperPlans : List HelperPlan := []
  helperModels : List HelperModel := []
  deriving DecidableEq

def lookupName (names : List (String × String)) (k : String) : Option String :=
  (names.find? (fun p => p.1 == k)).map (·.2)

/-- `tok` inside `g.helperName`: a stable, structure-encoding type token. -/
def helperTok : GoType → String
  | .ptr t => "Ptr_" ++ helperTok t
  | .slice t => "Slice_" ++ helperTok t
  | .array n t => "Array_" ++ toString n ++ "_" ++ helperTok t
  | .gomap k v => "Map_" ++ helperTok k ++ "_To_" ++ helperTok v
  | .named n => n
  | .scalar s => s

/-- `g.helperName`: deterministic helper name for a type pair. -/
def helperNameFn (src dst : GoType) (composite : Bool) : String :=
  (if composite then "mapc" else "map") ++ "_" ++ helperTok src ++ "_to_" ++ helperTok dst

/-- The memo key used by `ensureStructHelper`. -/
def pairKey (src dst : GoType) : String :=
  typeString src ++ "->" ++ typeString dst

/-- `ensureStructHelper` (source `helpers.go`): reserve-or-return.  On first
request for a pair it records the name in the memo table and, when the source
is record-like, appends an unpopulated plan, optionally pre-matching a custom
function provider from the registry. -/
def ensureStructHelper (E : GenEnv) (s : GenState) (srcType destType : GoType) :
    String × GenState :=
  let key := pairKey srcType destType
  match lookupName s.helperNames key with
  | some name => (name, s)
  | none =>
    let name := helperNameFn srcType destType false
    let s1 : GenState := { s with helperNames := (key, name) :: s.helperNames }
    match underlyingStruct E.env srcType with
    | none => (name, s1)
    | some (_, sPtr) =>
      let dPtr := ((underlyingStruct E.env destType).map (·.2)).getD false
      let zeroRet0 := zeroValue destType
      let zeroRet := if dPtr then "nil" else zeroRet0
      let underDest :=
        if dPtr then
          match destType with
          | .ptr t => typeString t
          | _ => ""
        else ""
      let plan0 : HelperPlan :=
        { name := name, srcGoType := srcType, destGoType := destType,
          srcIsPtr := sPtr, destIsPtr := dPtr, underDestType := underDest,
          zeroReturn := zeroRet }
      let plan1 :=
        match lookupReg E.registry (key ++ "#err") with
        | some mi =>
          if mi.kind == .customFunc && mi.hasError then
            { plan0 with customFuncName := mi.name, customFuncHasError := true }
          else plan0
        | none => plan0
      let plan2 :=
        if plan1.customFuncName == "" then
          match lookupReg E.registry key with
          | some mi =>
            if mi.kind == .customFunc then
              { plan1 with customFuncName := mi.name, customFuncHasError := false }
            else plan1
          | none => plan1
        else plan1
      (name, { s1 with helperPlans := s1.helperPlans ++ [plan2] })

/-- `ensureCompositeHelper` (source `helpers.go`). -/
def ensureCompositeHelper (E : GenEnv) (s : GenState) (srcType destType : GoType) :
    String × GenState :=
  let key := "comp:" ++ pairKey srcType destType
  match lookupName s.helperNames key with
  | some name => (name, s)
  | none =>
    let name := helperNameFn srcType destType true
    let s1 : GenState := { s with helperNames := (key, name) :: s.helperNames }
    let plan : HelperPlan :=
      { name := name, srcGoType := srcType, destGoType := destType, composite := true }
    (name, { s1 with helperPlans := s1.helperPlans ++ [plan] })

/-- The top-of-chain registry consultation of `buildAssignmentNodes`: a
provider for the exact pair yields a call node when it is a custom function,
or an interface method while a top-level method body is being built, and is
never the method currently being built. -/
def registryCallNodes (E : GenEnv) (destExpr srcExpr : String)
    (srcType destType : GoType) (currentMethod : String) (useCtx : Bool) :
    Option (List CodeNode) :=
  match lookupReg E.registry (pairKey srcType destType) with
  | some mi =>
    if mi.name != currentMethod then
      if mi.kind == .customFunc then
        some [.mk { kind := .assignFunc, dest := destExpr, method := mi.name,
                    arg := srcExpr, withError := mi.hasError, useContext := useCtx } []]
      else if currentMethod != "" then
        some [.mk { kind := .assignMethod, dest := destExpr, method := mi.name,
                    arg := srcExpr, withError := mi.hasError, useContext := useCtx } []]
      else none
    else none
  | none => none

/-- The registry consultation of the pointer case of `buildAssignmentNodes`,
on the unwrapped element pair. -/
def registryPtrNode (E : GenEnv) (destExpr srcExpr : String)
    (se de : GoType) (currentMethod : String) (useCtx : Bool) : Option CodeNode :=
  match lookupReg E.registry (pairKey se de) with
  | some mi =>
    if mi.name != currentMethod then
      if mi.kind == .customFunc then
        some (.mk { kind := .ptrFuncMap, src := srcExpr, dest := destExpr,
                    method := mi.name, withError := mi.hasError,
                    useContext := useCtx } [])
      else if currentMethod != "" then
        some (.mk { kind := .ptrMethodMap, src := srcExpr, dest := destExpr,
                    method := mi.name, withError := mi.hasError,
                    useContext := useCtx } [])
      else none
    else none
  | none => none

/-- `buildAssignmentNodes` (source `helpers.go`): the Assignment Resolver.
Decision chain: identical, assignable-cast, registry provider, shape-directed
loops/pointer guard, struct helper, unsupported.  May reserve helpers, so it
threads the generator state. -/
def buildAssignmentNodes (E : GenEnv) (destExpr srcExpr : String)
    (destType srcType : GoType) (currentMethod : String) (useCtx : Bool)
    (s : GenState) : List CodeNode × GenState :=
  if destType = srcType then
    ([.mk { kind := .assignDirect, dest := destExpr, src := srcExpr } []], s)
  else if E.assignable srcType destType then
    ([.mk { kind := .assignCast, dest := destExpr, src := srcExpr,
            castType := typeString destType } []], s)
  else
    match registryCallNodes E destExpr srcExpr srcType destType currentMethod useCtx with
    | some nodes => (nodes, s)
    | none =>
      let shaped : Option (List CodeNode × GenState) :=
        match destType, srcType with
        | .slice delem, .slice selem =>
          let child := (buildAssignmentNodes E "mapped" "v" delem selem currentMethod useCtx s).1
          let s1 := (buildAssignmentNodes E "mapped" "v" delem selem currentMethod useCtx s).2
          let loopErr := child.any (fun c => c.data.withError)
          some ([.mk { kind := .sliceMap, src := srcExpr, dest := destExpr,
                       destTypeS := typeString destType, elemTypeS := typeString delem,
                       loopWithError := loopErr } child], s1)
        | .array dn delem, .array sn selem =>
          if dn = sn then
            let child := (buildAssignmentNodes E (destExpr ++ "[i]") (srcExpr ++ "[i]")
              delem selem currentMethod useCtx s).1
            let s1 := (buildAssignmentNodes E (destExpr ++ "[i]") (srcExpr ++ "[i]")
              delem selem currentMethod useCtx s).2
            some ([.mk { kind := .arrayMap, src := srcExpr, dest := destExpr } child], s1)
          else none
        | .gomap dk dv, .gomap sk sv =>
          if dk = sk then
            let child := (buildAssignmentNodes E "mapped" "v" dv sv currentMethod useCtx s).1
            let s1 := (buildAssignmentNodes E "mapped" "v" dv sv currentMethod useCtx s).2
            let loopErr := child.any (fun c => c.data.withError)
            some ([.mk { kind := .mapMap, src := srcExpr, dest := destExpr,
                         destTypeS := typeString destType, elemTypeS := typeString dv,
                         loopWithError := loopErr } child], s1)
          else none
        | .ptr de, .ptr se =>
          if isStructLike E.env de && isStructLike E.env se then
            match registryPtrNode E destExpr srcExpr se de currentMethod useCtx with
            | some n => some ([n], s)
            | none =>
              some ([.mk { kind := .ptrStructMap, src := srcExpr, dest := destExpr,
                           helper := (ensureStructHelper E s srcType destType).1,
                           useContext := useCtx } []],
                    (ensureStructHelper E s srcType destType).2)
          else none
        | _, _ => none
      match shaped with
      | some r => r
      | none =>
        if isStructLike E.env destType && isStructLike E.env srcType then
          ([.mk { kind := .assignHelper, dest := destExpr, src := srcExpr,
                  helper := (ensureStructHelper E s srcType destType).1,
                  useContext := useCtx } []],
           (ensureStructHelper E s srcType destType).2)
        else
          ([.mk { kind := .unsupported, srcTypeS := typeString srcType,
                  destTypeS := typeString destType } []], s)
termination_by structural destType

/-- Conversion strategies named by the specification's decision order
(§4.1). -/
inductive Strategy where
  | direct | cast | callProvider | sliceLoop | arrayLoop | mapLoop
  | ptrRecord | helperCall | unsupported
  deriving DecidableEq, Repr

/-- Modelled from the spec: the Assignment Resolver's decision order as the
claim states it, first match wins — identical, assignable, registry provider
for the exact pair (custom function anywhere; interface method only while a
top-level method body is being built and never the method being built), both
slices, both equal-length arrays, both maps with identical key type, both
pointers to record, both record-like, otherwise unsupported. -/
def specStrategy (E : GenEnv) (destType srcType : GoType) (currentMethod : String) :
    Strategy :=
  let provHit : Bool :=
    match lookupReg E.registry (pairKey srcType destType) with
    | some mi => mi.name != currentMethod &&
        (mi.kind == .customFunc || currentMethod != "")
    | none => false
  if destType = srcType then .direct
  else if E.assignable srcType destType then .cast
  else if provHit then .callProvider
  else
    match destType, srcType with
    | .slice _, .slice _ => .sliceLoop
    | .array dn _, .array sn _ =>
      if dn = sn then .arrayLoop
      else if isStructLike E.env destType && isStructLike E.env srcType then .helperCall
      else .unsupported
    | .gomap dk _, .gomap sk _ =>
      if dk = sk then .mapLoop
      else if isStructLike E.env destType && isStructLike E.env srcType then .helperCall
      else .unsupported
    | .ptr de, .ptr se =>
      if isStructLike E.env de && isStructLike E.env se then .ptrRecord
      else if isStructLike E.env destType && isStructLike E.env srcType then .helperCall
      else .unsupported
    | dt, st =>
      if isStructLike E.env dt && isStructLike E.env st then .helperCall
      else .unsupported

/-- Classify an emitted node list by the strategy its head node realises. -/
def nodeStrategy (nodes : List CodeNode) : Strategy :=
  match nodes with
  | [] => .unsupported
  | n :: _ =>
    match n.data.kind with
    | .assignDirect => .direct
    | .assignCast => .cast
    | .assignFunc => .callProvider
    | .assignMethod => .callProvider
    | .sliceMap => .sliceLoop
    | .arrayMap => .arrayLoop
    | .mapMap => .mapLoop
    | .ptrStructMap => .ptrRecord
    | .ptrFuncMap => .ptrRecord
    | .ptrMethodMap => .ptrRecord
    | .assignHelper => .helperCall
    | _ => .unsupported

/-- Whether a node performs an assignment to the destination (anything except
the diagnostic kinds). -/
def isAssignmentNode (n : CodeNode) : Bool :=
  n.data.kind != .comment && n.data.kind != .unsupported

/-- Runtime semantics of the element loop in the `node_sliceMap` template:
`dst = make(DestType, len(src))` zero-fills every slot, then elements are
converted in index order; the first failing conversion returns immediately,
leaving the remaining slots at the zero value.  Returns the destination slice
contents and the reported failure, if any. -/
def fillFrom (conv : α → Except ε β) (zeroV : β) : List α → List β × Option ε
  | [] => ([], none)
  | a :: rest =>
    match conv a with
    | .ok b =>
      let (tl, e) := fillFrom conv zeroV rest
      (b :: tl, e)
    | .error e => (zeroV :: rest.map (fun _ => zeroV), some e)

/-- Runtime semantics of the `node_sliceMap` template: `if src != nil` the
destination is allocated with `len(src)` and filled by the element loop;
`else` the destination is `nil`. -/
def sliceMapSem (conv : α → Except ε β) (zeroV : β) :
    Option (List α) → Option (List β) × Option ε
  | none => (none, none)
  | some l =>
    let (d, e) := fillFrom conv zeroV l
    (some d, e)

/-- Runtime semantics of the `node_mapMap` template on an association-list
view of the source map: keys are copied unchanged, values converted; a nil
source yields a nil destination. -/
def mapMapSem (conv : α → Except ε β) (zeroV : β) :
    Option (List (κ × α)) → Option (List (κ × β)) × Option ε
  | none => (none, none)
  | some l =>
    let (d, e) := fillFrom conv zeroV (l.map (·.2))
    (some (l.map (·.1) |>.zip d), e)

/-- Runtime semantics of the `node_ptrStructMap` template: `if src != nil`
the reserved helper converts the (non-nil) source pointer and its result is
assigned; on helper failure the enclosing function returns that failure;
`else` the destination pointer is set to `nil`. -/
def ptrStructMapSem (helper : α → Except ε (Option β)) :
    Option α → Except ε (Option β)
  | none => .ok none
  | some x => helper x

/-- `matchesErrNode` inside `computeHelperErrors` (source `analysis.go`):
a node is error-producing when it is a fallible method call, a call to a
helper currently marked fallible, any node whose `WithError` flag is set, or
has an error-producing child. -/
def findModel (ms : List HelperModel) (n : String) : Option HelperModel :=
  ms.find? (fun h => h.name == n)

mutual

def matchesErrNode (ms : List HelperModel) : CodeNode → Bool
  | .mk d children =>
    if d.kind == .assignMethod || d.kind == .ptrMethodMap then d.withError
    else if (d.kind == .assignHelper || d.kind == .ptrStructMap) &&
        ((findModel ms d.helper).map (·.hasError)).getD false then true
    else if d.withError then true
    else matchesErrList ms children

def matchesErrList (ms : List HelperModel) : List CodeNode → Bool
  | [] => false
  | n :: rest => matchesErrNode ms n || matchesErrList ms rest

end

/-- `marksHelper` inside `computeHelperErrors`: some body node is
error-producing. -/
def marksHelper (ms : List HelperModel) (h : HelperModel) : Bool :=
  matchesErrList ms h.body

/-- One in-order pass of the fixed-point loop body: walks the helper list at
index `i`, setting `HasError` as soon as the helper is found to produce an
error; updates are visible to later checks in the same pass (the Go loop
mutates the shared slice through `index`).  Returns the updated list and
whether anything changed. -/
def errPassFrom : List HelperModel → Nat → Nat → List HelperModel × Bool
  | ms, 0, _ => (ms, false)
  | ms, fuel + 1, i =>
    match ms[i]? with
    | none => (ms, false)
    | some h =>
      let fires := !h.hasError && marksHelper ms h
      let ms1 := if fires then ms.set i { h with hasError := true } else ms
      ((errPassFrom ms1 fuel (i + 1)).1, (errPassFrom ms1 fuel (i + 1)).2 || fires)

def errPass (ms : List HelperModel) : List HelperModel × Bool :=
  errPassFrom ms ms.length 0

/-- The `for changed` outer loop of `computeHelperErrors`, fuelled: each
changing pass marks at least one new helper, so `length + 1` passes always
reach the fixed point. -/
def errLoop : Nat → List HelperModel → List HelperModel
  | 0, ms => ms
  | fuel + 1, ms =>
    let (ms1, ch) := errPass ms
    if ch then errLoop fuel ms1 else ms1

/-- `computeHelperErrors` (source `analysis.go`): run the fixed point and
return the final helper list (the Go function returns the set of fallible
names; the list carries the same information in its `hasError` flags). -/
def computeHelperErrors (ms : List HelperModel) : List HelperModel :=
  errLoop (ms.length + 1) ms

/-- A planned assignment for one destination field (`AssignmentPlan`). -/
structure AssignmentPlan where
  destField : String
  nodes : List CodeNode
  deriving DecidableEq

def tagLookup (tag : List (String × String)) (k : String) : String :=
  ((tag.find? (fun p => p.1 == k)).map (·.2)).getD ""

/-- `findMatchingSourceField` (source `generator.go`). -/
def findMatchingSourceField (src : StructDef) (n : String) : Option FieldDef :=
  src.fields.find? (fun f => f.exported && f.name == n)

def eqFold (a b : String) : Bool :=
  a.data.map Char.toLower == b.data.map Char.toLower

/-- `strings.Split(s, ".")` over the character list. -/
def splitDotChars : List Char → List (List Char)
  | [] => [[]]
  | c :: rest =>
    let r := splitDotChars rest
    if c = '.' then [] :: r
    else
      match r with
      | h :: t => (c :: h) :: t
      | [] => [[c]]

def goSplitDots (s : String) : List String :=
  (splitDotChars s.data).map String.mk

/-- `findTaggedSourceField`: a source field whose `map` annotation names the
destination field (case-insensitively). -/
def findTaggedSourceField (src : StructDef) (destName : String) : Option FieldDef :=
  src.fields.find? (fun f => f.exported &&
    (let v := tagLookup f.tag "map"
     v != "" && eqFold v destName))

def capitalize (s : String) : String :=
  match s.data with
  | [] => s
  | c :: rest => String.mk (c.toUpper :: rest)

/-- The `mapsrc` segment walk shared by field resolvers: follow exported
fields of nested records segment by segment, extending the source expression;
`none` when the walk fails partway. -/
def walkPath (env : TypeEnv) : GoType → String → List String → Option (String × GoType)
  | currType, expr, [] => some (expr, currType)
  | currType, expr, seg :: rest =>
    match underlyingStruct env currType with
    | none => none
    | some (st, _) =>
      match st.fields.find? (fun ff => ff.exported && ff.name == seg) with
      | none => none
      | some f => walkPath env f.ty (expr ++ "." ++ seg) rest

/-- Source-field choice of `helperStructPlans`: exact name match, then the
source-side `map` alias, then the destination-side `map` tag with a
capitalization retry. -/
def helperSourceField (sStruct : StructDef) (df : FieldDef) : Option FieldDef :=
  match findMatchingSourceField sStruct df.name with
  | some f => some f
  | none =>
    match findTaggedSourceField sStruct df.name with
    | some f => some f
    | none =>
      let sourceName := tagLookup df.tag "map"
      if sourceName != "" then
        match findMatchingSourceField sStruct sourceName with
        | some f => some f
        | none => findMatchingSourceField sStruct (capitalize sourceName)
      else none

/-- The `mapfn` signature check in `helperStructPlans`: one parameter, one
result or a value-and-`error` pair. -/
def mapfnSigOk (fn : FuncSig) : Bool :=
  fn.params.length == 1 && decide (1 ≤ fn.results.length) &&
    (fn.results.length == 1 ||
      (fn.results.length == 2 && isErrorType (fn.results.getD 1 (.scalar ""))))

/-- Per-field body of the `helperStructPlans` loop (source `analysis.go`,
`fieldResolver`).  `.error` models the Go nil-pointer panic that occurs when
a valid `mapfn` is found but no source field was matched by name or alias. -/
def resolveHelperField (E : GenEnv) (plan : HelperPlan) (sStruct : StructDef)
    (df : FieldDef) (s : GenState) :
    Except String (List AssignmentPlan × GenState) :=
  let fname := df.name
  let explicitFunc := tagLookup df.tag "mapfn"
  let explicitSrcPath := tagLookup df.tag "mapsrc"
  let sf := helperSourceField sStruct df
  let walked : Option (String × GoType) :=
    if explicitSrcPath != "" && explicitFunc == "" then
      walkPath E.env plan.srcGoType "in" (goSplitDots explicitSrcPath)
    else none
  match walked with
  | some (expr, currType) =>
    let (nodes, s1) := buildAssignmentNodes E ("dst." ++ fname) expr df.ty currType "" false s
    .ok ([{ destField := fname, nodes := nodes }], s1)
  | none =>
    if sf.isNone && explicitFunc == "" then
      .ok ([{ destField := fname,
              nodes := [.mk { kind := .comment, comment := "no source field for " ++ fname } []] }], s)
    else if explicitFunc != "" then
      match scopeLookup E.scope explicitFunc with
      | some fn =>
        if mapfnSigOk fn then
          let withErr := fn.results.length == 2
          match sf with
          | none => .error "runtime error: invalid memory address or nil pointer dereference"
          | some f =>
            match df.ty with
            | .slice delem =>
              let child : List CodeNode :=
                [.mk { kind := .assignFunc, dest := "mapped", method := explicitFunc,
                       arg := "v", withError := withErr } []]
              .ok ([{ destField := fname,
                      nodes := [.mk { kind := .sliceMap, src := "in." ++ f.name,
                                      dest := "dst." ++ fname,
                                      destTypeS := typeString (.slice delem),
                                      elemTypeS := typeString delem,
                                      loopWithError := withErr } child] }], s)
            | .gomap dk dv =>
              let child : List CodeNode :=
                [.mk { kind := .assignFunc, dest := "mapped", method := explicitFunc,
                       arg := "v", withError := withErr } []]
              .ok ([{ destField := fname,
                      nodes := [.mk { kind := .mapMap, src := "in." ++ f.name,
                                      dest := "dst." ++ fname,
                                      destTypeS := typeString (.gomap dk dv),
                                      elemTypeS := typeString dv,
                                      loopWithError := withErr } child] }], s)
            | _ =>
              .ok ([{ destField := fname,
                      nodes := [.mk { kind := .assignFunc, dest := "dst." ++ fname,
                                      method := explicitFunc, arg := "in." ++ f.name,
                                      withError := withErr } []] }], s)
        else
          .ok ([{ destField := fname,
                  nodes := [.mk { kind := .comment,
                                  comment := "mapfn not found or invalid: " ++ explicitFunc } []] }], s)
      | none =>
        .ok ([{ destField := fname,
                nodes := [.mk { kind := .comment,
                                comment := "mapfn not found or invalid: " ++ explicitFunc } []] }], s)
    else
      match sf with
      | some f =>
        let (nodes, s1) :=
          buildAssignmentNodes E ("dst." ++ fname) ("in." ++ f.name) df.ty f.ty "" false s
        .ok ([{ destField := fname, nodes := nodes }], s1)
      | none => .ok ([], s)

def resolveHelperFields (E : GenEnv) (plan : HelperPlan) (sStruct : StructDef) :
    List FieldDef → GenState → Except String (List AssignmentPlan × GenState)
  | [], s => .ok ([], s)
  | df :: rest, s =>
    if df.exported then
      match resolveHelperField E plan sStruct df s with
      | .error e => .error e
      | .ok (plansHere, s1) =>
        match resolveHelperFields E plan sStruct rest s1 with
        | .error e => .error e
        | .ok (plansRest, s2) => .ok (plansHere ++ plansRest, s2)
    else resolveHelperFields E plan sStruct rest s

/-- `helperStructPlans` (source `analysis.go`): assignment plans for a helper
mapping one source struct to one destination struct; `[]` corresponds to the
Go `nil` return (missing struct shapes or no exported destination fields). -/
def helperStructPlans (E : GenEnv) (plan : HelperPlan) (s : GenState) :
    Except String (List AssignmentPlan × GenState) :=
  match underlyingStruct E.env plan.srcGoType, underlyingStruct E.env plan.destGoType with
  | some (sStruct, _), some (dStruct, _) => resolveHelperFields E plan sStruct dStruct.fields s
  | _, _ => .ok ([], s)

/-- A method parameter as `buildMethodModel` records it (name fallback `p%d`
already applied). -/
structure MethodParam where
  name : String
  ty : GoType
  deriving DecidableEq, Repr

/-- `prefixDest` (source `generator.go`). -/
def prefixDest (destPtr : Bool) : String := if destPtr then "mapped." else "dst."

/-- `prefixSrc` (source `generator.go`). -/
def prefixSrc (param : String) (isPtr : Bool) : String :=
  if isPtr then "*" ++ param ++ "." else param ++ "."

/-- The `paramStructs`/`paramPtrs` tables of `methodStructPlans`: struct-like
non-context parameters keyed by name.  Built in parameter order; a duplicate
name overwrites, as Go map insertion does, so lookup takes the last entry. -/
def buildParamStructs (env : TypeEnv) (params : List MethodParam)
    (ctxIndex : Option Nat) : List (String × StructDef × Bool) :=
  (params.enum.filterMap (fun p =>
    if ctxIndex = some p.1 then none
    else (underlyingStruct env p.2.ty).map (fun sb => (p.2.name, sb))))

def paramStructLookup (tbl : List (String × StructDef × Bool)) (n : String) :
    Option (StructDef × Bool) :=
  (tbl.reverse.find? (fun p => p.1 == n)).map (·.2)

def digitsToNat (cs : List Char) : Nat :=
  cs.foldl (fun acc c => acc * 10 + (c.toNat - '0'.toNat)) 0

/-- `fmt.Sscanf(idxStr, "%d", &idx)` on a non-negative token: succeeds when
the string starts with at least one digit, reading the maximal digit run. -/
def sscanfNat (str : String) : Option Nat :=
  let digits := str.data.takeWhile Char.isDigit
  if digits.isEmpty then none else some (digitsToNat digits)

/-- `strings.HasPrefix(s, "p")`. -/
def startsWithP (s : String) : Bool :=
  match s.data with
  | 'p' :: _ => true
  | _ => false

/-- The `mapsrc` parameter-selector resolution of `methodStructPlans`:
positional `p<N>` tokens (zero-based among non-context parameters) are tried
first, then parameter names; `""` when neither resolves. -/
def selectSrcParam (params : List MethodParam) (ctxIndex : Option Nat)
    (paramToken : String) : String :=
  let positional : String :=
    if startsWithP paramToken then
      let idxStr := String.mk (paramToken.data.drop 1)
      if idxStr != "" then
        let nonCtx := (params.enum.filterMap (fun p =>
          if ctxIndex = some p.1 then none else some p.2))
        match sscanfNat idxStr with
        | some idx => ((nonCtx.get? idx).map (·.name)).getD ""
        | none => ""
      else ""
    else ""
  if positional == "" then
    ((params.find? (fun p => p.name == paramToken)).map (·.name)).getD ""
  else positional

/-- The `mapsrc` path-walk attempt of `methodStructPlans`: locate the selected
parameter by name and walk the remaining segments from its type. -/
def mapsrcWalk (E : GenEnv) (params : List MethodParam) (selParam : String)
    (pathParts : List String) : Option (String × GoType) :=
  match params.enum.find? (fun pr => pr.2.name == selParam) with
  | some (_, p) => walkPath E.env p.ty selParam pathParts
  | none => none

/-- The other-parameter search of `methodStructPlans`: the first other
struct-like parameter holding an exported field named like the destination
field. -/
def otherParamHit (tbl : List (String × StructDef × Bool)) (params : List MethodParam)
    (srcParamName fname : String) : Option (MethodParam × FieldDef) :=
  params.findSome? (fun p =>
    if p.name == srcParamName then none
    else
      match paramStructLookup tbl p.name with
      | none => none
      | some (ss, _) =>
        (ss.fields.find? (fun f2 => f2.exported && f2.name == fname)).map
          (fun f2 => (p, f2)))

/-- The whole-type fallback of `methodStructPlans`: the first non-context
parameter whose entire type is identical to the destination field's type. -/
def typeIdentHit (params : List MethodParam) (ctxIndex : Option Nat)
    (dfTy : GoType) : Option MethodParam :=
  params.enum.findSome? (fun pr =>
    if ctxIndex = some pr.1 then none
    else if pr.2.ty = dfTy then some pr.2 else none)

/-- The name-based tail of the `methodStructPlans` per-field loop: everything
after the `mapsrc` block, parameterised by the already-chosen source
parameter and source field name.  Covers exact-name lookup in the chosen
parameter, the other-parameter search by destination field name, the
whole-type parameter match, and the diagnostic fallback. -/
def resolveByName (E : GenEnv) (mpName : String) (params : List MethodParam)
    (ctxIndex : Option Nat) (destPtr : Bool) (useCtx : Bool)
    (tbl : List (String × StructDef × Bool)) (df : FieldDef)
    (srcParamName srcFieldName : String) (s : GenState) :
    List AssignmentPlan × GenState :=
  let fname := df.name
  match paramStructLookup tbl srcParamName with
  | none =>
    ([{ destField := fname,
        nodes := [.mk { kind := .comment, comment := "no struct param for " ++ fname } []] }], s)
  | some (sStruct, _) =>
    match sStruct.fields.find? (fun f => f.exported && f.name == srcFieldName) with
    | some f =>
      let isPtr := ((paramStructLookup tbl srcParamName).map (·.2)).getD false
      let (nodes, s1) := buildAssignmentNodes E (prefixDest destPtr ++ fname)
        (prefixSrc srcParamName isPtr ++ f.name) df.ty f.ty mpName useCtx s
      ([{ destField := fname, nodes := nodes }], s1)
    | none =>
      match otherParamHit tbl params srcParamName fname with
      | some (p, f2) =>
        let isPtr := ((paramStructLookup tbl p.name).map (·.2)).getD false
        let (nodes, s1) := buildAssignmentNodes E (prefixDest destPtr ++ fname)
          (prefixSrc p.name isPtr ++ f2.name) df.ty f2.ty mpName useCtx s
        ([{ destField := fname, nodes := nodes }], s1)
      | none =>
        match typeIdentHit params ctxIndex df.ty with
        | some p =>
          ([{ destField := fname,
              nodes := [.mk { kind := .assignDirect, dest := prefixDest destPtr ++ fname,
                              src := p.name } []] }], s)
        | none =>
          ([{ destField := fname,
              nodes := [.mk { kind := .comment, comment := "no source for " ++ fname } []] }], s)

/-- Per-field body of `methodStructPlans` (source `analysis.go`): the
`mapsrc` parameter selector and path walk, then fall-through to name-based
resolution.  When the walk fails, only a single-segment path overrides the
source field name; otherwise the destination field's own name is used. -/
def resolveMethodField (E : GenEnv) (mpName : String) (params : List MethodParam)
    (ctxIndex : Option Nat) (destPtr : Bool) (primaryName : String) (useCtx : Bool)
    (tbl : List (String × StructDef × Bool)) (df : FieldDef) (s : GenState) :
    List AssignmentPlan × GenState :=
  let fname := df.name
  let mapsrc := tagLookup df.tag "mapsrc"
  let selParam : String :=
    if mapsrc != "" then
      selectSrcParam params ctxIndex ((goSplitDots mapsrc).headD "")
    else ""
  let pathParts : List String :=
    if mapsrc != "" then (goSplitDots mapsrc).drop 1 else []
  let walked : Option (String × GoType) :=
    if mapsrc != "" && pathParts != [] then
      mapsrcWalk E params selParam pathParts
    else none
  match walked with
  | some (expr, currType) =>
    let (nodes, s1) := buildAssignmentNodes E (prefixDest destPtr ++ fname) expr
      df.ty currType mpName useCtx s
    ([{ destField := fname, nodes := nodes }], s1)
  | none =>
    let srcFieldName :=
      if mapsrc != "" && pathParts.length == 1 then pathParts.headD "" else ""
    let srcParamName := if selParam == "" then primaryName else selParam
    let srcFieldName := if srcFieldName == "" then fname else srcFieldName
    resolveByName E mpName params ctxIndex destPtr useCtx tbl df srcParamName srcFieldName s

def resolveMethodFields (E : GenEnv) (mpName : String) (params : List MethodParam)
    (ctxIndex : Option Nat) (destPtr : Bool) (primaryName : String) (useCtx : Bool)
    (tbl : List (String × StructDef × Bool)) :
    List FieldDef → GenState → List AssignmentPlan × GenState
  | [], s => ([], s)
  | df :: rest, s =>
    if df.exported then
      let (plansHere, s1) :=
        resolveMethodField E mpName params ctxIndex destPtr primaryName useCtx tbl df s
      let (plansRest, s2) :=
        resolveMethodFields E mpName params ctxIndex destPtr primaryName useCtx tbl rest s1
      (plansHere ++ plansRest, s2)
    else resolveMethodFields E mpName params ctxIndex destPtr primaryName useCtx tbl rest s

/-- `methodStructPlans` (source `analysis.go`): field resolution for a
multi-parameter struct-mapping method. -/
def methodStructPlans (E : GenEnv) (mpName : String) (params : List MethodParam)
    (destStruct : StructDef) (destPtr : Bool) (ctxIndex : Option Nat)
    (primaryName : String) (useCtx : Bool) (s : GenState) :
    List AssignmentPlan × GenState :=
  let tbl := buildParamStructs E.env params ctxIndex
  resolveMethodFields E mpName params ctxIndex destPtr primaryName useCtx tbl destStruct.fields s

/-- Processing of one entry of the `populateHelpers` loop (source
`helpers.go`): skip populated plans; composite plans get their body from the
Assignment Resolver on the whole pair; plans with a matched custom provider
become a single delegated call; otherwise the Field Resolver builds the body.
`.error` propagates the Go panic from `helperStructPlans`. -/
def populateOne (E : GenEnv) (s : GenState) (i : Nat) : Except String GenState :=
  match s.helperPlans[i]? with
  | none => .ok s
  | some plan =>
    if plan.populated then .ok s
    else if plan.composite then
      let (body, s1) := buildAssignmentNodes E "dst" "in" plan.destGoType plan.srcGoType "" false s
      let hm : HelperModel :=
        { name := plan.name, srcTypeS := typeString plan.srcGoType,
          destTypeS := typeString plan.destGoType, body := body }
      .ok { s1 with helperModels := s1.helperModels ++ [hm],
                    helperPlans := s1.helperPlans.set i { plan with populated := true } }
    else if plan.customFuncName != "" then
      let hm : HelperModel :=
        { name := plan.name, srcTypeS := typeString plan.srcGoType,
          destTypeS := typeString plan.destGoType, srcIsPtr := plan.srcIsPtr,
          destIsPtr := plan.destIsPtr, underDestType := plan.underDestType,
          zeroReturn := plan.zeroReturn,
          body := [.mk { kind := .assignFunc, dest := "dst", method := plan.customFuncName,
                         arg := "in", withError := plan.customFuncHasError } []],
          hasError := plan.customFuncHasError }
      .ok { s with helperModels := s.helperModels ++ [hm],
                   helperPlans := s.helperPlans.set i { plan with populated := true } }
    else
      match helperStructPlans E plan s with
      | .error e => .error e
      | .ok (plans, s1) =>
        if plans.isEmpty then
          .ok { s1 with helperPlans := s1.helperPlans.set i { plan with populated := true } }
        else
          let body := (plans.map (·.nodes)).flatten
          let hasErr := body.any (fun n => n.data.withError)
          let hm : HelperModel :=
            { name := plan.name, srcTypeS := typeString plan.srcGoType,
              destTypeS := typeString plan.destGoType, srcIsPtr := plan.srcIsPtr,
              destIsPtr := plan.destIsPtr, underDestType := plan.underDestType,
              zeroReturn := plan.zeroReturn, body := body, hasError := hasErr }
          .ok { s1 with helperModels := s1.helperModels ++ [hm],
                        helperPlans := s1.helperPlans.set i { plan with populated := true } }

/-- Why a fuelled run stopped early. -/
inductive RunStop where
  | goPanic (msg : String)
  | fuelOut
  deriving DecidableEq, Repr

/-- The `for i := 0; i < len(g.helperPlans); i++` loop of `populateHelpers`,
which re-reads the (growing) plan list bound on every iteration.  The fuel
argument is a modelling artefact; the termination theorem exhibits a bound
under which `.error .fuelOut` cannot occur. -/
def populateLoop (E : GenEnv) : Nat → GenState → Nat → Except RunStop GenState
  | 0, _, _ => .error .fuelOut
  | fuel + 1, s, i =>
    if i < s.helperPlans.length then
      match populateOne E s i with
      | .error e => .error (.goPanic e)
      | .ok s1 => populateLoop E fuel s1 (i + 1)
    else .ok s

/-- `populateHelpers` run from index 0 with the given fuel. -/
def populateHelpers (E : GenEnv) (fuel : Nat) (s : GenState) : Except RunStop GenState :=
  populateLoop E fuel s 0

/-- All (reflexive) structural subterms of a type handle. -/
def subterms : GoType → List GoType
  | .ptr e => .ptr e :: subterms e
  | .slice e => .slice e :: subterms e
  | .array n e => .array n e :: subterms e
  | .gomap k v => .gomap k v :: (subterms k ++ subterms v)
  | .named n => [.named n]
  | .scalar str => [.scalar str]

/-- Every type reachable through the fields of the type model, closed under
subterms. -/
def envFieldTypes (env : TypeEnv) : List GoType :=
  (env.map (fun p => (p.2.fields.map (fun f => subterms f.ty)).flatten)).flatten

/-- The memo keys a type universe can ever give rise to (struct and
composite variants). -/
def keyUniverse (univ : List GoType) : List String :=
  (univ.map (fun a => (univ.map (fun b =>
    [pairKey a b, "comp:" ++ pairKey a b])).flatten)).flatten

/-- The nil-guard emission loop of `buildMethodModel` (source `methods.go`
lines 88-92): `for pn, isPtr := range paramPtrs` over a Go map, emitting an
`ifNilReturn` node per pointer parameter.  `order` is the enumeration order
the Go runtime chooses for the map's entries — any permutation of them. -/
def nilGuardNodes (order : List (String × Bool)) (zeroV : String)
    (hasError : Bool) : List CodeNode :=
  order.filterMap (fun pb =>
    if pb.2 then
      some (.mk { kind := .ifNilReturn, varName := pb.1, zero := zeroV,
                  withError := hasError } [])
    else none)

/-- The entries of the `paramPtrs` map in parameter order (insertion order):
struct-like non-context parameters with their pointer flags. -/
def paramPtrEntries (env : TypeEnv) (params : List MethodParam)
    (ctxIndex : Option Nat) : List (String × Bool) :=
  (buildParamStructs env params ctxIndex).map (fun p => (p.1, p.2.2))

/-- Projection used to compare emitted node sequences. -/
def guardVarNames (nodes : List CodeNode) : List String :=
  nodes.map (fun n => n.data.varName)

instance exceptDecEq {ε α : Type} [DecidableEq ε] [DecidableEq α] :
    DecidableEq (Except ε α) := fun a b =>
  match a, b with
  | .ok x, .ok y =>
    if h : x = y then isTrue (by rw [h]) else isFalse (by intro c; cases c; exact h rfl)
  | .error x, .error y =>
    if h : x = y then isTrue (by rw [h]) else isFalse (by intro c; cases c; exact h rfl)
  | .ok _, .error _ => isFalse (by intro c; cases c)
  | .error _, .ok _ => isFalse (by intro c; cases c)

/-- Remove one annotation key (used to state that an ignored annotation does
not influence resolution). -/
def tagErase (tag : List (String × String)) (k : String) : List (String × String) :=
  tag.filter (fun p => p.1 != k)

/-- An exported string field without annotations. -/
def strField (n : String) : FieldDef :=
  { name := n, exported := true, ty := .scalar "string" }

/-- The repository's `examples/recursive` type graph: `A` holds `*B`, `B`
holds `*A` — the cycle the spec cites; the destination back-reference field
`A` has no same-named source field. -/
def envRec : TypeEnv :=
  [("A", { fields := [strField "Text",
                      { name := "B", exported := true, ty := .ptr (.named "B") }] }),
   ("B", { fields := [strField "Text",
                      { name := "A", exported := true, ty := .ptr (.named "A") }] })]

def Erec : GenEnv :=
  { env := envRec, registry := [], scope := [], assignable := fun _ _ => false }

/-- A pointer cycle whose back-reference field names match on both sides:
`A.X : *A`, `B.X : *B`, mapping `A` to `B`. -/
def envCyc : TypeEnv :=
  [("A", { fields := [{ name := "X", exported := true, ty := .ptr (.named "A") }] }),
   ("B", { fields := [{ name := "X", exported := true, ty := .ptr (.named "B") }] })]

def Ecyc : GenEnv :=
  { env := envCyc, registry := [], scope := [], assignable := fun _ _ => false }

/-- Destination field carrying both a `mapfn` and a `mapsrc` annotation, with
a same-named source field and a resolvable single-argument function. -/
def envBoth : TypeEnv :=
  [("S", { fields := [{ name := "V", exported := true, ty := .scalar "int" }] }),
   ("D", { fields := [{ name := "V", exported := true, ty := .scalar "int",
                        tag := [("mapfn", "Conv"), ("mapsrc", "V")] }] })]

def Eboth : GenEnv :=
  { env := envBoth, registry := [],
    scope := [{ name := "Conv", params := [.scalar "int"], results := [.scalar "int"] }],
    assignable := fun _ _ => false }

def planBoth : HelperPlan :=
  { name := "map_S_to_D", srcGoType := .named "S", destGoType := .named "D" }

/-- A two-segment `mapsrc` path whose walk fails at the first segment; the
path's last segment `Y` names an existing source field, and so does the
destination field's own name `F`. -/
def envPath : TypeEnv :=
  [("A", { fields := [strField "F", strField "Y"] }),
   ("Out", { fields := [{ name := "F", exported := true, ty := .scalar "string",
                          tag := [("mapsrc", "a.X.Y")] }] })]

def Epath : GenEnv :=
  { env := envPath, registry := [], scope := [], assignable := fun _ _ => false }

def paramsPath : List MethodParam := [{ name := "a", ty := .named "A" }]

def outFieldPath : FieldDef :=
  { name := "F", exported := true, ty := .scalar "string", tag := [("mapsrc", "a.X.Y")] }

/-- A destination struct with one exported and one unexported field. -/
def envExported : TypeEnv :=
  [("S", { fields := [{ name := "V", exported := true, ty := .scalar "int" }] }),
   ("D", { fields := [{ name := "V", exported := true, ty := .scalar "int" },
                      { name := "hidden", exported := false, ty := .scalar "int" }] })]

def Eexported : GenEnv :=
  { env := envExported, registry := [], scope := [], assignable := fun _ _ => false }

def planExported : HelperPlan :=
  { name := "map_S_to_D", srcGoType := .named "S", destGoType := .named "D" }

/-- Two helpers forming a call chain: `H1` calls `H2`, and `H2`'s body is a
fallible custom-function call. -/
def chainH2 : HelperModel :=
  { name := "H2", srcTypeS := "S2", destTypeS := "D2",
    body := [.mk { kind := .assignFunc, dest := "dst", method := "Conv",
                   arg := "in", withError := true } []],
    hasError := true }

def chainH1 : HelperModel :=
  { name := "H1", srcTypeS := "S1", destTypeS := "D1",
    body := [.mk { kind := .assignHelper, dest := "dst.F", src := "in.F",
                   helper := "H2" } []],
    hasError := false }


/-- The memo key a helper plan was reserved under in `g.helperNames`. -/
def planKey (p : HelperPlan) : String :=
  (if p.composite then "comp:" else "") ++ pairKey p.srcGoType p.destGoType

/-- A type universe closed under structural subterms. -/
abbrev subClosed (U : List GoType) : Prop :=
  ∀ t ∈ U, ∀ u ∈ subterms t, u ∈ U

/-- Planning-state invariant over a type universe `U`: memo keys are
pairwise distinct and drawn from the finitely many keys `U` can generate,
every plan is filed under its own (distinct) memo key, and all plan types
stay inside `U`. -/
abbrev stInv (U : List GoType) (s : GenState) : Prop :=
  (s.helperNames.map Prod.fst).Nodup ∧
  (∀ k ∈ s.helperNames.map Prod.fst, k ∈ keyUniverse U) ∧
  (s.helperPlans.map planKey).Nodup ∧
  (∀ k ∈ s.helperPlans.map planKey, k ∈ s.helperNames.map Prod.fst) ∧
  (∀ p ∈ s.helperPlans, p.srcGoType ∈ U ∧ p.destGoType ∈ U)

/-- The subterm-closed universe of the name-matched cycle model. -/
def cycU : List GoType := envFieldTypes envCyc

/-- State after the root reservation `ensureStructHelper(A, B)` on the
name-matched cycle. -/
def s0cyc : GenState := (ensureStructHelper Ecyc {} (.named "A") (.named "B")).2

/-- State after the root reservation on the repository's recursive example. -/
def s0rec : GenState := (ensureStructHelper Erec {} (.named "A") (.named "B")).2

theorem lookupName_cons_self (names : List (String × String)) (k v : String) :
    lookupName ((k, v) :: names) k = some v := by
  simp [lookupName, List.find?]

theorem ensureStructHelper_names_lookup (E : GenEnv) (s : GenState) (src dst : GoType) :
    lookupName (ensureStructHelper E s src dst).2.helperNames (pairKey src dst) =
      some (ensureStructHelper E s src dst).1 := by
  unfold ensureStructHelper
  cases h : lookupName s.helperNames (pairKey src dst) with
  | some name => simp [h]
  | none =>
    cases hu : underlyingStruct E.env src with
    | none => simp [h, hu, lookupName_cons_self]
    | some p => simp [h, hu, lookupName_cons_self]

theorem ensureCompositeHelper_names_lookup (E : GenEnv) (s : GenState) (src dst : GoType) :
    lookupName (ensureCompositeHelper E s src dst).2.helperNames ("comp:" ++ pairKey src dst) =
      some (ensureCompositeHelper E s src dst).1 := by
  unfold ensureCompositeHelper
  cases h : lookupName s.helperNames ("comp:" ++ pairKey src dst) with
  | some name => simp [h]
  | none => simp [h, lookupName_cons_self]

/-- C4: the reserve step is idempotent per type pair — a second call with the
same pair returns exactly the name of the first call and leaves the state
(in particular the plan queue) unchanged, and a single call enqueues at most
one plan, for both the struct and the composite reserve entry points. -/
theorem reserve_step_idempotent (E : GenEnv) (s : GenState) (src dst : GoType) :
    ensureStructHelper E (ensureStructHelper E s src dst).2 src dst =
      ensureStructHelper E s src dst ∧
    ensureCompositeHelper E (ensureCompositeHelper E s src dst).2 src dst =
      ensureCompositeHelper E s src dst ∧
    (ensureStructHelper E s src dst).2.helperPlans.length ≤ s.helperPlans.length + 1 ∧
    (ensureCompositeHelper E s src dst).2.helperPlans.length ≤ s.helperPlans.length + 1 := by
  have hit : ∀ (s2 : GenState) (n : String),
      lookupName s2.helperNames (pairKey src dst) = some n →
      ensureStructHelper E s2 src dst = (n, s2) := by
    intro s2 n hn
    unfold ensureStructHelper
    simp [hn]
  have hitC : ∀ (s2 : GenState) (n : String),
      lookupName s2.helperNames ("comp:" ++ pairKey src dst) = some n →
      ensureCompositeHelper E s2 src dst = (n, s2) := by
    intro s2 n hn
    unfold ensureCompositeHelper
    simp [hn]
  refine ⟨?_, ?_, ?_, ?_⟩
  · exact hit _ _ (ensureStructHelper_names_lookup E s src dst)
  · exact hitC _ _ (ensureCompositeHelper_names_lookup E s src dst)
  · unfold ensureStructHelper
    cases h : lookupName s.helperNames (pairKey src dst) with
    | some name => simp [h]
    | none =>
      cases hu : underlyingStruct E.env src with
      | none => simp [h, hu]
      | some p => simp [h, hu]
  · unfold ensureCompositeHelper
    cases h : lookupName s.helperNames ("comp:" ++ pairKey src dst) with
    | some name => simp [h]
    | none => simp [h]

/-- C5: the generated collection and pointer templates propagate null: a nil
source slice/map yields a nil destination (never an empty one) and a nil
source pointer yields a nil destination pointer, while a non-nil source is
passed to the element/helper conversion and its result assigned. -/
theorem null_propagation {α β ε κ : Type} (conv : α → Except ε β) (zeroV : β)
    (helper : α → Except ε (Option β)) :
    sliceMapSem conv zeroV none = (none, none) ∧
    mapMapSem (κ := κ) conv zeroV none = (none, none) ∧
    ptrStructMapSem helper none = .ok none ∧
    (sliceMapSem conv zeroV none).1 ≠ some [] ∧
    (mapMapSem (κ := κ) conv zeroV none).1 ≠ some [] ∧
    (∀ l, sliceMapSem conv zeroV (some l) =
      (some (fillFrom conv zeroV l).1, (fillFrom conv zeroV l).2)) ∧
    (∀ (m : List (κ × α)), (mapMapSem conv zeroV (some m)).1 ≠ none) ∧
    (∀ x, ptrStructMapSem helper (some x) = helper x) := by
  refine ⟨rfl, rfl, rfl, by simp [sliceMapSem], by simp [mapMapSem], ?_, ?_, fun _ => rfl⟩
  · intro l
    simp [sliceMapSem]
  · intro m
    simp [mapMapSem]

theorem fillFrom_length {α β ε : Type} (conv : α → Except ε β) (zeroV : β)
    (l : List α) : (fillFrom conv zeroV l).1.length = l.length := by
  induction l with
  | nil => rfl
  | cons a rest ih =>
    cases h : conv a with
    | ok b => simp [fillFrom, h, ih]
    | error e => simp [fillFrom, h]

theorem getElem?_map_const {α β : Type} (l : List α) (z : β) (i : Nat)
    (h : i < l.length) : (l.map (fun _ => z))[i]? = some z := by
  induction l generalizing i with
  | nil => simp at h
  | cons a rest ih =>
    cases i with
    | zero => simp
    | succ j =>
      simp only [List.map_cons, List.getElem?_cons_succ]
      exact ih j (by simpa using Nat.lt_of_succ_lt_succ h)

/-- C6: over a fallible per-element conversion, a source of N elements whose
first failure is at index k makes the generated slice mapping report that
failure with the destination allocated at length N, indices below k holding
the converted values and indices from k on still zero-valued. -/
theorem error_short_circuit {α β ε : Type} (conv : α → Except ε β) (zeroV : β)
    (l : List α) (k : Nat) (e : ε)
    (hok : ∀ i, i < k → ∃ b, (l[i]?.map conv) = some (.ok b))
    (hfail : l[k]?.map conv = some (.error e)) :
    ∃ d, sliceMapSem conv zeroV (some l) = (some d, some e) ∧
      d.length = l.length ∧
      (∀ i, i < k → d[i]? = (l[i]?.map conv).bind Except.toOption) ∧
      (∀ i, k ≤ i → i < l.length → d[i]? = some zeroV) := by
  have main : ∀ (l : List α) (k : Nat),
      (∀ i, i < k → ∃ b, (l[i]?.map conv) = some (.ok b)) →
      (l[k]?.map conv = some (.error e)) →
      ∃ d, fillFrom conv zeroV l = (d, some e) ∧
        d.length = l.length ∧
        (∀ i, i < k → d[i]? = (l[i]?.map conv).bind Except.toOption) ∧
        (∀ i, k ≤ i → i < l.length → d[i]? = some zeroV) := by
    intro l
    induction l with
    | nil =>
      intro k _ hfail
      simp at hfail
    | cons a rest ih =>
      intro k hok hfail
      cases k with
      | zero =>
        have ha : conv a = .error e := by simpa using hfail
        refine ⟨zeroV :: rest.map (fun _ => zeroV), ?_, ?_, ?_, ?_⟩
        · simp [fillFrom, ha]
        · simp
        · intro i hi; omega
        · intro i _ hlen
          cases i with
          | zero => simp
          | succ j =>
            simp only [List.getElem?_cons_succ]
            exact getElem?_map_const rest zeroV j (by simpa using Nat.lt_of_succ_lt_succ hlen)
      | succ k0 =>
        obtain ⟨b, hb⟩ := hok 0 (Nat.succ_pos k0)
        have ha : conv a = .ok b := by simpa using hb
        have hok0 : ∀ i, i < k0 → ∃ b2, (rest[i]?.map conv) = some (.ok b2) := by
          intro i hi
          have := hok (i + 1) (by omega)
          simpa using this
        have hfail0 : rest[k0]?.map conv = some (.error e) := by simpa using hfail
        obtain ⟨d0, hd0, hlen0, hpre0, hzero0⟩ := ih k0 hok0 hfail0
        refine ⟨b :: d0, ?_, ?_, ?_, ?_⟩
        · simp [fillFrom, ha, hd0]
        · simpa using hlen0
        · intro i hi
          cases i with
          | zero => simp [ha, Except.toOption]
          | succ j =>
            simp only [List.getElem?_cons_succ]
            exact hpre0 j (by omega)
        · intro i hge hlen
          cases i with
          | zero => omega
          | succ j =>
            simp only [List.getElem?_cons_succ]
            exact hzero0 j (by omega) (by simpa using Nat.lt_of_succ_lt_succ hlen)
  obtain ⟨d, hd, hlen, hpre, hzero⟩ := main l k hok hfail
  exact ⟨d, by simp [sliceMapSem, hd], hlen, hpre, hzero⟩

/-- Witness for C6: three elements, the third fails — destination has length
3, indices 0 and 1 populated, index 2 zero-valued, and the failure reported. -/
theorem error_short_circuit_witness :
    (∀ i, i < 2 → ∃ b, (([1, 2, 3] : List Int)[i]?.map
        (fun n => if n = 3 then Except.error "bad" else Except.ok (n * 10))) =
        some (.ok b)) ∧
    ∃ d, sliceMapSem (fun n : Int => if n = 3 then Except.error "bad" else Except.ok (n * 10))
        0 (some [1, 2, 3]) = (some d, some "bad") ∧
      d.length = 3 ∧
      (∀ i, i < 2 → d[i]? =
        ((([1, 2, 3] : List Int)[i]?.map
          (fun n => if n = 3 then Except.error "bad" else Except.ok (n * 10))).bind
            Except.toOption)) ∧
      (∀ i, 2 ≤ i → i < 3 → d[i]? = some 0) := by
  constructor
  · intro i hi
    interval_cases i
    · exact ⟨10, by norm_num⟩
    · exact ⟨20, by norm_num⟩
  · have := error_short_circuit
      (fun n : Int => if n = 3 then Except.error "bad" else Except.ok (n * 10))
      0 [1, 2, 3] 2 "bad"
      (by intro i hi; interval_cases i
          · exact ⟨10, by norm_num⟩
          · exact ⟨20, by norm_num⟩)
      (by norm_num)
    simpa using this

/-- C9: the nil-guard emission for pointer parameters of a multi-parameter
method ranges over a Go map, whose enumeration order the runtime is free to
permute — two valid enumerations of the same `paramPtrs` table produce
different node sequences, so the generated output is not a function of the
type model and declarations alone. -/
theorem nil_guard_order_not_stable :
    paramPtrEntries [("User", { fields := [strField "Name"] })]
      [{ name := "p0", ty := .ptr (.named "User") },
       { name := "p1", ty := .ptr (.named "User") }] none =
      [("p0", true), ("p1", true)] ∧
    [("p1", true), ("p0", true)].Perm [("p0", true), ("p1", true)] ∧
    guardVarNames (nilGuardNodes [("p0", true), ("p1", true)] "UserDTO\x7b\x7d" false) =
      ["p0", "p1"] ∧
    guardVarNames (nilGuardNodes [("p1", true), ("p0", true)] "UserDTO\x7b\x7d" false) =
      ["p1", "p0"] ∧
    nilGuardNodes [("p0", true), ("p1", true)] "UserDTO\x7b\x7d" false ≠
      nilGuardNodes [("p1", true), ("p0", true)] "UserDTO\x7b\x7d" false := by
  refine ⟨by decide, by decide, by decide, by decide, ?_⟩
  intro h
  have := congrArg guardVarNames h
  simp [nilGuardNodes, guardVarNames, CodeNode.data] at this

/-- C7 counterexample: a destination field annotated with both `mapfn` and
`mapsrc` is not rejected — the Field Resolver applies the conversion
function to the name-matched source field and emits no diagnostic node. -/
theorem mapfn_mapsrc_combination_not_rejected :
    helperStructPlans Eboth planBoth {} =
      .ok ([{ destField := "V",
              nodes := [.mk { kind := .assignFunc, dest := "dst.V", method := "Conv",
                              arg := "in.V" } []] }], {}) ∧
    (∀ ap ∈ [({ destField := "V",
                nodes := [.mk { kind := .assignFunc, dest := "dst.V", method := "Conv",
                                arg := "in.V" } []] } : AssignmentPlan)],
      ∀ n ∈ ap.nodes, isAssignmentNode n = true) := by
  constructor
  · rfl
  · decide

theorem tagLookup_cons (p : String × String) (xs : List (String × String)) (k : String) :
    tagLookup (p :: xs) k = if p.1 == k then p.2 else tagLookup xs k := by
  cases h : p.1 == k <;> simp [tagLookup, List.find?, h]

theorem tagErase_cons (p : String × String) (xs : List (String × String)) (k : String) :
    tagErase (p :: xs) k = if p.1 != k then p :: tagErase xs k else tagErase xs k := by
  cases h : p.1 != k <;> simp [tagErase, List.filter_cons, h]

theorem tagLookup_tagErase (tag : List (String × String)) (k k2 : String)
    (h : k2 ≠ k) : tagLookup (tagErase tag k) k2 = tagLookup tag k2 := by
  induction tag with
  | nil => rfl
  | cons p rest ih =>
    rw [tagErase_cons]
    by_cases hp : p.1 = k
    · have hbne : (p.1 != k) = false := by simp [hp]
      have hk2 : (p.1 == k2) = false := by
        refine beq_eq_false_iff_ne.mpr ?_
        rw [hp]
        exact fun e => h e.symm
      simp [hbne, tagLookup_cons, hk2, ih]
    · have hbne : (p.1 != k) = true := by simpa using hp
      simp [hbne, tagLookup_cons, ih]

theorem helperSourceField_tagErase_mapsrc (sStruct : StructDef) (df : FieldDef) :
    helperSourceField sStruct { df with tag := tagErase df.tag "mapsrc" } =
      helperSourceField sStruct df := by
  unfold helperSourceField
  simp [tagLookup_tagErase df.tag "mapsrc" "map" (by decide)]

/-- C7 amended: when a destination field carries both annotations, the
source-path annotation is ignored — resolution proceeds exactly as if the
`mapsrc` key were absent, with the conversion-function annotation in
control. -/
theorem mapfn_overrides_mapsrc (E : GenEnv) (plan : HelperPlan) (sStruct : StructDef)
    (df : FieldDef) (s : GenState) (h : tagLookup df.tag "mapfn" ≠ "") :
    resolveHelperField E plan sStruct df s =
      resolveHelperField E plan sStruct { df with tag := tagErase df.tag "mapsrc" } s := by
  have hfn : tagLookup (tagErase df.tag "mapsrc") "mapfn" = tagLookup df.tag "mapfn" :=
    tagLookup_tagErase df.tag "mapsrc" "mapfn" (by decide)
  have h2 : tagLookup df.tag "mapfn" = "" ↔ False := ⟨h, False.elim⟩
  unfold resolveHelperField
  simp only [hfn, helperSourceField_tagErase_mapsrc]
  simp [h2]

/-- Witness for the amended C7: the `mapfn`+`mapsrc` field of `envBoth`
resolves identically with and without its `mapsrc` annotation. -/
theorem mapfn_overrides_mapsrc_witness :
    tagLookup [("mapfn", "Conv"), ("mapsrc", "V")] "mapfn" ≠ "" ∧
    resolveHelperField Eboth planBoth { fields := [{ name := "V", exported := true, ty := .scalar "int" }] }
        { name := "V", exported := true, ty := .scalar "int",
          tag := [("mapfn", "Conv"), ("mapsrc", "V")] } {} =
      resolveHelperField Eboth planBoth { fields := [{ name := "V", exported := true, ty := .scalar "int" }] }
        { name := "V", exported := true, ty := .scalar "int",
          tag := tagErase [("mapfn", "Conv"), ("mapsrc", "V")] "mapsrc" } {} :=
  ⟨by decide,
   mapfn_overrides_mapsrc Eboth planBoth
     { fields := [{ name := "V", exported := true, ty := .scalar "int" }] }
     { name := "V", exported := true, ty := .scalar "int",
       tag := [("mapfn", "Conv"), ("mapsrc", "V")] } {} (by decide)⟩

/-- C8 counterexample: for a two-segment `mapsrc` path `a.X.Y` whose walk
fails at `X`, the Field Resolver matches by the destination field's own name
`F` (emitting `a.F`), not by the path's last segment `Y` — even though a
source field `Y` exists and last-segment matching would have produced
`a.Y`. -/
theorem mapsrc_long_path_uses_dest_name :
    (methodStructPlans Epath "M" paramsPath { fields := [outFieldPath] } false none
        "a" false {}).1 =
      [{ destField := "F",
         nodes := [.mk { kind := .assignDirect, dest := "dst.F", src := "a.F" } []] }] ∧
    (resolveByName Epath "M" paramsPath none false false
        (buildParamStructs envPath paramsPath none) outFieldPath "a" "Y" {}).1 =
      [{ destField := "F",
         nodes := [.mk { kind := .assignDirect, dest := "dst.F", src := "a.Y" } []] }] ∧
    (methodStructPlans Epath "M" paramsPath { fields := [outFieldPath] } false none
        "a" false {}).1 ≠
      (resolveByName Epath "M" paramsPath none false false
        (buildParamStructs envPath paramsPath none) outFieldPath "a" "Y" {}).1 := by
  refine ⟨by decide, by decide, by decide⟩

/-- C8 amended: when the `mapsrc` walk fails (or its parameter selector does
not resolve), the field falls through to name-based matching; the source
field name is the path's last segment only when the path beyond the selector
has exactly one (non-empty) segment — longer failed paths fall back to the
destination field's own name. -/
theorem mapsrc_walk_fallback (E : GenEnv) (mpName : String)
    (params : List MethodParam) (ctxIndex : Option Nat) (destPtr : Bool)
    (primaryName : String) (useCtx : Bool) (tbl : List (String × StructDef × Bool))
    (df : FieldDef) (s : GenState)
    (hm : tagLookup df.tag "mapsrc" ≠ "")
    (hwalk : mapsrcWalk E params
        (selectSrcParam params ctxIndex ((goSplitDots (tagLookup df.tag "mapsrc")).headD ""))
        ((goSplitDots (tagLookup df.tag "mapsrc")).drop 1) = none) :
    resolveMethodField E mpName params ctxIndex destPtr primaryName useCtx tbl df s =
      resolveByName E mpName params ctxIndex destPtr useCtx tbl df
        (if selectSrcParam params ctxIndex
              ((goSplitDots (tagLookup df.tag "mapsrc")).headD "") == "" then primaryName
         else selectSrcParam params ctxIndex
              ((goSplitDots (tagLookup df.tag "mapsrc")).headD ""))
        (if ((goSplitDots (tagLookup df.tag "mapsrc")).drop 1).length == 1 &&
              ((goSplitDots (tagLookup df.tag "mapsrc")).drop 1).headD "" != "" then
           ((goSplitDots (tagLookup df.tag "mapsrc")).drop 1).headD ""
         else df.name) s := by
  have hmb : (tagLookup df.tag "mapsrc" != "") = true := by simpa using hm
  unfold resolveMethodField
  simp only [hmb, if_true, Bool.true_and, if_pos]
  cases hpp : (goSplitDots (tagLookup df.tag "mapsrc")).drop 1 with
  | nil => simp
  | cons seg rest =>
    rw [hpp] at hwalk
    simp only [hwalk]
    cases hrest : rest with
    | nil =>
      by_cases hseg : seg = ""
      · subst hseg
        simp
      · have : (seg != "") = true := by simpa using hseg
        simp [this, hseg]
    | cons b bs => simp

/-- Witness for the amended C8: the failing two-segment path of `envPath`
resolves through name-based matching with the destination field's own name. -/
theorem mapsrc_walk_fallback_witness :
    tagLookup outFieldPath.tag "mapsrc" ≠ "" ∧
    mapsrcWalk Epath paramsPath
        (selectSrcParam paramsPath none ((goSplitDots (tagLookup outFieldPath.tag "mapsrc")).headD ""))
        ((goSplitDots (tagLookup outFieldPath.tag "mapsrc")).drop 1) = none ∧
    resolveMethodField Epath "M" paramsPath none false "a" false
        (buildParamStructs envPath paramsPath none) outFieldPath {} =
      resolveByName Epath "M" paramsPath none false false
        (buildParamStructs envPath paramsPath none) outFieldPath
        (if selectSrcParam paramsPath none
              ((goSplitDots (tagLookup outFieldPath.tag "mapsrc")).headD "") == "" then "a"
         else selectSrcParam paramsPath none
              ((goSplitDots (tagLookup outFieldPath.tag "mapsrc")).headD ""))
        (if ((goSplitDots (tagLookup outFieldPath.tag "mapsrc")).drop 1).length == 1 &&
              ((goSplitDots (tagLookup outFieldPath.tag "mapsrc")).drop 1).headD "" != "" then
           ((goSplitDots (tagLookup outFieldPath.tag "mapsrc")).drop 1).headD ""
         else outFieldPath.name) {} :=
  ⟨by decide, by decide,
   mapsrc_walk_fallback Epath "M" paramsPath none false "a" false
     (buildParamStructs envPath paramsPath none) outFieldPath {} (by decide) (by decide)⟩

theorem resolveByName_destField (E : GenEnv) (mpName : String)
    (params : List MethodParam) (ctxIndex : Option Nat) (destPtr : Bool)
    (useCtx : Bool) (tbl : List (String × StructDef × Bool)) (df : FieldDef)
    (spn sfn : String) (s : GenState) :
    ∀ ap ∈ (resolveByName E mpName params ctxIndex destPtr useCtx tbl df spn sfn s).1,
      ap.destField = df.name := by
  unfold resolveByName
  repeat' split
  all_goals intro ap hap
  all_goals try simp_all
  all_goals (rcases hoth : otherParamHit tbl params spn df.name with _ | ⟨p2, f3⟩ <;>
    simp_all)

theorem resolveMethodField_destField (E : GenEnv) (mpName : String)
    (params : List MethodParam) (ctxIndex : Option Nat) (destPtr : Bool)
    (primaryName : String) (useCtx : Bool) (tbl : List (String × StructDef × Bool))
    (df : FieldDef) (s : GenState) :
    ∀ ap ∈ (resolveMethodField E mpName params ctxIndex destPtr primaryName useCtx tbl df s).1,
      ap.destField = df.name := by
  intro ap hap
  unfold resolveMethodField at hap
  dsimp only at hap
  repeat' split at hap
  all_goals first
    | exact resolveByName_destField E mpName params ctxIndex destPtr useCtx tbl df _ _ s ap hap
    | simp_all

theorem resolveMethodFields_exported (E : GenEnv) (mpName : String)
    (params : List MethodParam) (ctxIndex : Option Nat) (destPtr : Bool)
    (primaryName : String) (useCtx : Bool) (tbl : List (String × StructDef × Bool)) :
    ∀ (fields : List FieldDef) (s : GenState),
      ∀ ap ∈ (resolveMethodFields E mpName params ctxIndex destPtr primaryName useCtx tbl fields s).1,
        ∃ f ∈ fields, f.exported = true ∧ ap.destField = f.name := by
  intro fields
  induction fields with
  | nil => intro s ap hap; simp [resolveMethodFields] at hap
  | cons df rest ih =>
    intro s ap hap
    by_cases hex : df.exported
    · simp only [resolveMethodFields, hex, if_pos] at hap
      rw [List.mem_append] at hap
      cases hap with
      | inl h =>
        exact ⟨df, List.mem_cons_self df rest, hex,
          resolveMethodField_destField E mpName params ctxIndex destPtr primaryName useCtx tbl df s ap h⟩
      | inr h =>
        obtain ⟨f, hf, hfe, hfn⟩ := ih _ ap h
        exact ⟨f, List.mem_cons_of_mem df hf, hfe, hfn⟩
    · simp only [resolveMethodFields, hex] at hap
      simp at hap
      obtain ⟨f, hf, hfe, hfn⟩ := ih s ap (by simpa using hap)
      exact ⟨f, List.mem_cons_of_mem df hf, hfe, hfn⟩

theorem resolveHelperField_destField (E : GenEnv) (plan : HelperPlan)
    (sStruct : StructDef) (df : FieldDef) (s : GenState) :
    ∀ r, resolveHelperField E plan sStruct df s = .ok r →
      ∀ ap ∈ r.1, ap.destField = df.name := by
  intro r hr ap hap
  unfold resolveHelperField at hr
  dsimp only at hr
  repeat' split at hr
  all_goals first
    | (injection hr with hr2; subst hr2; simp_all)
    | simp_all

theorem resolveHelperFields_exported (E : GenEnv) (plan : HelperPlan)
    (sStruct : StructDef) :
    ∀ (fields : List FieldDef) (s : GenState) (plans : List AssignmentPlan)
      (s2 : GenState),
      resolveHelperFields E plan sStruct fields s = .ok (plans, s2) →
      ∀ ap ∈ plans, ∃ f ∈ fields, f.exported = true ∧ ap.destField = f.name := by
  intro fields
  induction fields with
  | nil =>
    intro s plans s2 h ap hap
    unfold resolveHelperFields at h
    simp only [Except.ok.injEq, Prod.mk.injEq] at h
    rw [← h.1] at hap
    cases hap
  | cons df rest ih =>
    intro s plans s2 h ap hap
    by_cases hex : df.exported
    · simp only [resolveHelperFields, hex, if_pos] at h
      cases hhd : resolveHelperField E plan sStruct df s with
      | error e => rw [hhd] at h; cases h
      | ok r =>
        obtain ⟨plansHere, s1⟩ := r
        rw [hhd] at h
        dsimp only at h
        cases htl : resolveHelperFields E plan sStruct rest s1 with
        | error e => rw [htl] at h; cases h
        | ok r2 =>
          obtain ⟨plansRest, s2x⟩ := r2
          rw [htl] at h
          dsimp only at h
          simp only [Except.ok.injEq, Prod.mk.injEq] at h
          obtain ⟨hplans, hs⟩ := h
          subst hplans
          rw [List.mem_append] at hap
          cases hap with
          | inl hm =>
            exact ⟨df, List.mem_cons_self df rest, hex,
              resolveHelperField_destField E plan sStruct df s (plansHere, s1) hhd ap hm⟩
          | inr hm =>
            obtain ⟨f, hf, hfe, hfn⟩ := ih s1 plansRest s2x htl ap hm
            exact ⟨f, List.mem_cons_of_mem df hf, hfe, hfn⟩
    · simp only [resolveHelperFields, hex] at h
      obtain ⟨f, hf, hfe, hfn⟩ := ih s plans s2 (by simpa using h) ap hap
      exact ⟨f, List.mem_cons_of_mem df hf, hfe, hfn⟩

/-- C10: every field-resolution loop targets only exported destination
fields — every assignment plan produced for a helper body or a
multi-parameter method body names an exported field of the destination
struct, so unexported fields are silently skipped. -/
theorem only_exported_fields_targeted :
    (∀ (E : GenEnv) (plan : HelperPlan) (s : GenState)
       (plans : List AssignmentPlan) (s2 : GenState),
      helperStructPlans E plan s = .ok (plans, s2) →
      ∀ ap ∈ plans, ∃ sd b, underlyingStruct E.env plan.destGoType = some (sd, b) ∧
        ∃ f ∈ sd.fields, f.exported = true ∧ ap.destField = f.name) ∧
    (∀ (E : GenEnv) (mpName : String) (params : List MethodParam)
       (destStruct : StructDef) (destPtr : Bool) (ctxIndex : Option Nat)
       (primaryName : String) (useCtx : Bool) (s : GenState),
      ∀ ap ∈ (methodStructPlans E mpName params destStruct destPtr ctxIndex
                primaryName useCtx s).1,
        ∃ f ∈ destStruct.fields, f.exported = true ∧ ap.destField = f.name) := by
  constructor
  · intro E plan s plans s2 h ap hap
    unfold helperStructPlans at h
    cases hsrc : underlyingStruct E.env plan.srcGoType with
    | none => rw [hsrc] at h; cases h; simp_all
    | some sp =>
      cases hdst : underlyingStruct E.env plan.destGoType with
      | none => rw [hsrc, hdst] at h; cases h; simp_all
      | some dp =>
        obtain ⟨sd, b⟩ := dp
        rw [hsrc, hdst] at h
        obtain ⟨f, hf, hfe, hfn⟩ :=
          resolveHelperFields_exported E plan sp.1 sd.fields s plans s2 h ap hap
        exact ⟨sd, b, rfl, ⟨f, hf, hfe, hfn⟩⟩
  · intro E mpName params destStruct destPtr ctxIndex primaryName useCtx s ap hap
    exact resolveMethodFields_exported E mpName params ctxIndex destPtr primaryName useCtx
      (buildParamStructs E.env params ctxIndex) destStruct.fields s ap hap

/-- Witness for C10: in `envExported` the helper plans target only the
exported field `V`, never the unexported `hidden`. -/
theorem only_exported_fields_targeted_witness :
    (∃ plans s2, helperStructPlans Eexported planExported {} = .ok (plans, s2) ∧
      ∀ ap ∈ plans, ∃ sd b, underlyingStruct Eexported.env planExported.destGoType = some (sd, b) ∧
        ∃ f ∈ sd.fields, f.exported = true ∧ ap.destField = f.name) ∧
    (∀ ap ∈ (methodStructPlans Eexported "M" [{ name := "in0", ty := .named "S" }]
        { fields := [{ name := "V", exported := true, ty := .scalar "int" },
                     { name := "hidden", exported := false, ty := .scalar "int" }] }
        false none "in0" false {}).1,
      ∃ f ∈ [({ name := "V", exported := true, ty := .scalar "int" } : FieldDef),
             { name := "hidden", exported := false, ty := .scalar "int" }],
        f.exported = true ∧ ap.destField = f.name) := by
  constructor
  · refine ⟨[{ destField := "V",
               nodes := [.mk { kind := .assignDirect, dest := "dst.V", src := "in.V" } []] }],
            {}, by decide, ?_⟩
    exact only_exported_fields_targeted.1 Eexported planExported {} _ {} (by decide)
  · exact only_exported_fields_targeted.2 Eexported "M" [{ name := "in0", ty := .named "S" }]
      { fields := [{ name := "V", exported := true, ty := .scalar "int" },
                   { name := "hidden", exported := false, ty := .scalar "int" }] }
      false none "in0" false {}

end Graft

namespace Graft

theorem registryCallNodes_none_iff (E : GenEnv) (destExpr srcExpr : String)
    (srcType destType : GoType) (currentMethod : String) (useCtx : Bool) :
    registryCallNodes E destExpr srcExpr srcType destType currentMethod useCtx = none ↔
      (match lookupReg E.registry (pairKey srcType destType) with
       | some mi => mi.name != currentMethod && (mi.kind == .customFunc || currentMethod != "")
       | none => false) = false := by
  unfold registryCallNodes
  cases hlook : lookupReg E.registry (pairKey srcType destType) with
  | none => simp
  | some mi =>
    dsimp only
    by_cases hn : (mi.name != currentMethod) = true
    · by_cases hk : (mi.kind == RegKind.customFunc) = true
      · simp [hn, hk]
      · by_cases hc : (currentMethod != "") = true
        · simp [hn, (by simpa using hk : ¬ mi.kind = RegKind.customFunc), hc]
        · simp [hn, (by simpa using hk : ¬ mi.kind = RegKind.customFunc),
                (by simpa using hc : currentMethod = "")]
    · simp [(by simpa using hn : mi.name = currentMethod)]

theorem registryCallNodes_some_strategy (E : GenEnv) (destExpr srcExpr : String)
    (srcType destType : GoType) (currentMethod : String) (useCtx : Bool)
    (nodes : List CodeNode)
    (h : registryCallNodes E destExpr srcExpr srcType destType currentMethod useCtx = some nodes) :
    nodeStrategy nodes = .callProvider ∧
      (match lookupReg E.registry (pairKey srcType destType) with
       | some mi => mi.name != currentMethod && (mi.kind == .customFunc || currentMethod != "")
       | none => false) = true := by
  unfold registryCallNodes at h
  cases hlook : lookupReg E.registry (pairKey srcType destType) with
  | none => rw [hlook] at h; cases h
  | some mi =>
    rw [hlook] at h
    dsimp only at h ⊢
    by_cases hn : (mi.name != currentMethod) = true
    · by_cases hk : (mi.kind == RegKind.customFunc) = true
      · rw [if_pos hn, if_pos hk] at h
        cases h
        simp [nodeStrategy, CodeNode.data, hn, hk]
      · by_cases hc : (currentMethod != "") = true
        · rw [if_pos hn, if_neg (by simpa using hk), if_pos hc] at h
          cases h
          simp [nodeStrategy, CodeNode.data, hn, hc]
        · rw [if_pos hn, if_neg (by simpa using hk), if_neg (by simpa using hc)] at h
          cases h
    · rw [if_neg (by simpa using hn)] at h
      cases h

theorem registryPtrNode_kind (E : GenEnv) (destExpr srcExpr : String)
    (se de : GoType) (currentMethod : String) (useCtx : Bool) (n : CodeNode)
    (h : registryPtrNode E destExpr srcExpr se de currentMethod useCtx = some n) :
    n.data.kind = .ptrFuncMap ∨ n.data.kind = .ptrMethodMap := by
  unfold registryPtrNode at h
  cases hlook : lookupReg E.registry (pairKey se de) with
  | none => rw [hlook] at h; cases h
  | some mi =>
    rw [hlook] at h
    dsimp only at h
    by_cases hn : (mi.name != currentMethod) = true
    · by_cases hk : (mi.kind == RegKind.customFunc) = true
      · rw [if_pos hn, if_pos hk] at h
        cases h
        left; rfl
      · by_cases hc : (currentMethod != "") = true
        · rw [if_pos hn, if_neg (by simpa using hk), if_pos hc] at h
          cases h
          right; rfl
        · rw [if_pos hn, if_neg (by simpa using hk), if_neg (by simpa using hc)] at h
          cases h
    · rw [if_neg (by simpa using hn)] at h
      cases h

set_option maxHeartbeats 2000000 in
theorem assignment_shape_stage (E : GenEnv) (destExpr srcExpr : String)
    (destType srcType : GoType) (currentMethod : String) (useCtx : Bool) (s : GenState)
    (h1 : ¬ destType = srcType) (h2 : E.assignable srcType destType = false)
    (hr : registryCallNodes E destExpr srcExpr srcType destType currentMethod useCtx = none) :
    nodeStrategy (buildAssignmentNodes E destExpr srcExpr destType srcType currentMethod useCtx s).1 =
      specStrategy E destType srcType currentMethod := by
  have hp := (registryCallNodes_none_iff E destExpr srcExpr srcType destType currentMethod useCtx).mp hr
  unfold specStrategy
  dsimp only
  rw [if_neg h1]
  simp only [hp, h2, Bool.false_eq_true, if_false]
  cases destType <;> cases srcType
  case ptr.ptr de se =>
    simp only [buildAssignmentNodes, hr, if_neg h1, h2, Bool.false_eq_true, if_false]
    by_cases hsl : (isStructLike E.env de && isStructLike E.env se) = true
    · rcases hpn : registryPtrNode E destExpr srcExpr se de currentMethod useCtx with _ | n
      · simp [hsl, hpn, nodeStrategy, CodeNode.data]
      · rcases registryPtrNode_kind E destExpr srcExpr se de currentMethod useCtx n hpn with hknd | hknd <;>
          (rcases n with ⟨d0, c0⟩
           simp only [CodeNode.data] at hknd
           simp [hsl, hpn, nodeStrategy, CodeNode.data, hknd])
    · have hslf : (isStructLike E.env de && isStructLike E.env se) = false := by
        simpa using hsl
      simp only [hslf, Bool.false_eq_true, if_false]
      simp [nodeStrategy, CodeNode.data, isStructLike]
  all_goals (
    simp only [buildAssignmentNodes, hr, if_neg h1, h2, Bool.false_eq_true, if_false] <;>
    (try split_ifs) <;>
    simp_all [nodeStrategy, CodeNode.data, isStructLike])

end Graft

namespace Graft

set_option maxHeartbeats 2000000 in
theorem assignment_unsupported_diag (E : GenEnv) (destExpr srcExpr : String)
    (destType srcType : GoType) (currentMethod : String) (useCtx : Bool) (s : GenState)
    (hsh : specStrategy E destType srcType currentMethod = .unsupported) :
    (buildAssignmentNodes E destExpr srcExpr destType srcType currentMethod useCtx s).1 =
      [.mk { kind := .unsupported, srcTypeS := typeString srcType,
             destTypeS := typeString destType } []] := by
  have h1 : ¬ destType = srcType := by
    intro h
    unfold specStrategy at hsh
    simp [h] at hsh
  have h2 : E.assignable srcType destType = false := by
    cases ha : E.assignable srcType destType with
    | false => rfl
    | true =>
      unfold specStrategy at hsh
      rw [if_neg h1] at hsh
      simp [ha] at hsh
  have hp : (match lookupReg E.registry (pairKey srcType destType) with
      | some mi => mi.name != currentMethod && (mi.kind == .customFunc || currentMethod != "")
      | none => false) = false := by
    cases hq : (match lookupReg E.registry (pairKey srcType destType) with
      | some mi => mi.name != currentMethod && (mi.kind == RegKind.customFunc || currentMethod != "")
      | none => false) with
    | false => rfl
    | true =>
      unfold specStrategy at hsh
      rw [if_neg h1] at hsh
      simp only [h2, Bool.false_eq_true, if_false] at hsh
      rw [hq] at hsh
      simp at hsh
  have hr := (registryCallNodes_none_iff E destExpr srcExpr srcType destType currentMethod useCtx).mpr hp
  unfold specStrategy at hsh
  rw [if_neg h1] at hsh
  simp only [hp, h2, Bool.false_eq_true, if_false] at hsh
  cases destType <;> cases srcType <;>
    simp only [buildAssignmentNodes, hr, if_neg h1, h2, Bool.false_eq_true, if_false] <;>
    (try split_ifs) <;>
    simp_all [nodeStrategy, CodeNode.data, isStructLike]

/-- C1: the Assignment Resolver realises the specification's decision order,
first match winning — identical types give a direct assignment, assignable
types a cast, a registry provider for the exact pair a call node (custom
functions anywhere, interface methods only while a top-level method body is
being built and never the method being built), then slice, equal-length
array, identical-key map and pointer-to-record loops, then a struct helper
call for record-like pairs, and every remaining pair yields exactly one
`unsupported` diagnostic node carrying both type names with no assignment
emitted. -/
theorem assignment_decision_order (E : GenEnv) (destExpr srcExpr : String)
    (destType srcType : GoType) (currentMethod : String) (useCtx : Bool) (s : GenState) :
    nodeStrategy (buildAssignmentNodes E destExpr srcExpr destType srcType currentMethod useCtx s).1 =
      specStrategy E destType srcType currentMethod ∧
    (specStrategy E destType srcType currentMethod = .unsupported →
      (buildAssignmentNodes E destExpr srcExpr destType srcType currentMethod useCtx s).1 =
        [.mk { kind := .unsupported, srcTypeS := typeString srcType,
               destTypeS := typeString destType } []]) := by
  constructor
  · by_cases h1 : destType = srcType
    · subst h1
      unfold specStrategy
      dsimp only
      rw [if_pos rfl]
      cases destType <;>
        (simp only [buildAssignmentNodes]; simp [nodeStrategy, CodeNode.data])
    · by_cases h2 : E.assignable srcType destType = true
      · unfold specStrategy
        dsimp only
        rw [if_neg h1, if_pos h2]
        cases destType <;> cases srcType <;>
          (simp only [buildAssignmentNodes]; rw [if_neg h1, if_pos h2]; simp [nodeStrategy, CodeNode.data])
      · have h2f : E.assignable srcType destType = false := by simpa using h2
        cases hrc : registryCallNodes E destExpr srcExpr srcType destType currentMethod useCtx with
        | some nodes =>
          obtain ⟨hstrat, hhit⟩ := registryCallNodes_some_strategy E destExpr srcExpr
            srcType destType currentMethod useCtx nodes hrc
          unfold specStrategy
          dsimp only
          rw [if_neg h1]
          simp only [h2f, Bool.false_eq_true, if_false, hhit, if_true]
          cases destType <;> cases srcType <;>
            (simp only [buildAssignmentNodes]; rw [if_neg h1];
             simp only [h2f, Bool.false_eq_true, if_false, hrc]; try dsimp only
             exact hstrat)
        | none =>
          exact assignment_shape_stage E destExpr srcExpr destType srcType currentMethod useCtx s
            h1 h2f hrc
  · intro hsh
    exact assignment_unsupported_diag E destExpr srcExpr destType srcType currentMethod useCtx s hsh

/-- Witness for C1: a scalar pair with no applicable strategy falls through
to the diagnostic node. -/
theorem assignment_decision_order_witness :
    specStrategy Erec (.scalar "int") (.scalar "string") "" = .unsupported ∧
    (buildAssignmentNodes Erec "d" "s" (.scalar "int") (.scalar "string") "" false {}).1 =
      [.mk { kind := .unsupported, srcTypeS := "string", destTypeS := "int" } []] :=
  ⟨by decide,
   (assignment_decision_order Erec "d" "s" (.scalar "int") (.scalar "string") "" false {}).2
     (by decide)⟩

end Graft

namespace Graft

/-- Pointwise evolution of the helper list during the fixed point: names and
bodies frozen, fallibility flags only ever raised. -/
def HMLe (a b : HelperModel) : Prop :=
  a.name = b.name ∧ a.body = b.body ∧ (a.hasError = true → b.hasError = true)

theorem HMLe_refl (a : HelperModel) : HMLe a a := ⟨rfl, rfl, id⟩

theorem HMLe_trans {a b c : HelperModel} (h1 : HMLe a b) (h2 : HMLe b c) : HMLe a c :=
  ⟨h1.1.trans h2.1, h1.2.1.trans h2.2.1, fun h => h2.2.2 (h1.2.2 h)⟩

theorem findModel_mono {ms ms2 : List HelperModel} (h : List.Forall₂ HMLe ms ms2)
    (n : String) :
    ∀ hm, findModel ms n = some hm → hm.hasError = true →
      ∃ hm2, findModel ms2 n = some hm2 ∧ hm2.hasError = true := by
  induction h with
  | nil => intro hm hfind; simp [findModel] at hfind
  | @cons a b l1 l2 hab _ ih =>
    intro hm hfind herr
    by_cases hn : a.name == n
    · simp only [findModel, List.find?, hn] at hfind
      cases hfind
      refine ⟨b, ?_, hab.2.2 herr⟩
      have : (b.name == n) = true := by
        rw [← hab.1]; exact hn
      simp [findModel, List.find?, this]
    · have hn2 : (b.name == n) = false := by
        rw [← hab.1]; simpa using hn
      simp only [findModel, List.find?, hn, Bool.false_eq_true] at hfind
      obtain ⟨hm2, hf2, he2⟩ := ih hm (by simpa [findModel] using hfind) herr
      refine ⟨hm2, ?_, he2⟩
      simp only [findModel, List.find?, hn2]
      simpa [findModel] using hf2

mutual

theorem matchesErrNode_mono {ms ms2 : List HelperModel} (h : List.Forall₂ HMLe ms ms2) :
    ∀ n : CodeNode, matchesErrNode ms n = true → matchesErrNode ms2 n = true
  | .mk d children, hm => by
    unfold matchesErrNode at hm ⊢
    by_cases hk : (d.kind == NodeKind.assignMethod || d.kind == NodeKind.ptrMethodMap) = true
    · rwa [if_pos hk] at hm ⊢
    · rw [if_neg hk] at hm ⊢
      by_cases hh : ((d.kind == NodeKind.assignHelper || d.kind == NodeKind.ptrStructMap) &&
          ((findModel ms d.helper).map (fun x => x.hasError)).getD false) = true
      · have hh1 : (d.kind == NodeKind.assignHelper || d.kind == NodeKind.ptrStructMap) = true := by
          have := hh
          simp only [Bool.and_eq_true] at this
          exact this.1
        have hh2 : ((findModel ms d.helper).map (fun x => x.hasError)).getD false = true := by
          have := hh
          simp only [Bool.and_eq_true] at this
          exact this.2
        cases hfind : findModel ms d.helper with
        | none => rw [hfind] at hh2; simp at hh2
        | some hmdl =>
          rw [hfind] at hh2
          simp at hh2
          obtain ⟨hm2, hf2, he2⟩ := findModel_mono h d.helper hmdl hfind hh2
          rw [if_pos (by simp [hh1, hf2, he2])]
      · rw [if_neg hh] at hm
        by_cases hw : d.withError = true
        · rw [if_pos hw]
          split <;> rfl
        · rw [if_neg hw] at hm
          have hrec := matchesErrList_mono h children hm
          by_cases hh2 : ((d.kind == NodeKind.assignHelper || d.kind == NodeKind.ptrStructMap) &&
              ((findModel ms2 d.helper).map (fun x => x.hasError)).getD false) = true
          · rw [if_pos hh2]
          · rw [if_neg hh2, if_neg hw]
            exact hrec

theorem matchesErrList_mono {ms ms2 : List HelperModel} (h : List.Forall₂ HMLe ms ms2) :
    ∀ l : List CodeNode, matchesErrList ms l = true → matchesErrList ms2 l = true
  | [], hm => by simp [matchesErrList] at hm
  | n :: rest, hm => by
    unfold matchesErrList at hm ⊢
    rcases Bool.or_eq_true_iff.mp hm with h1 | h2
    · exact Bool.or_eq_true_iff.mpr (Or.inl (matchesErrNode_mono h n h1))
    · exact Bool.or_eq_true_iff.mpr (Or.inr (matchesErrList_mono h rest h2))

end

theorem matchesErrNode_of_withError (ms : List HelperModel) (n : CodeNode)
    (hw : n.data.withError = true) : matchesErrNode ms n = true := by
  rcases n with ⟨d, children⟩
  simp only [CodeNode.data] at hw
  unfold matchesErrNode
  by_cases hk : (d.kind == NodeKind.assignMethod || d.kind == NodeKind.ptrMethodMap) = true
  · rw [if_pos hk]; exact hw
  · rw [if_neg hk]
    split <;> simp [hw]

theorem matchesErrList_of_any_withError (ms : List HelperModel) (l : List CodeNode)
    (hw : l.any (fun n => n.data.withError) = true) : matchesErrList ms l = true := by
  induction l with
  | nil => simp at hw
  | cons n rest ih =>
    unfold matchesErrList
    rw [List.any_cons] at hw
    rcases Bool.or_eq_true_iff.mp hw with h1 | h2
    · exact Bool.or_eq_true_iff.mpr (Or.inl (matchesErrNode_of_withError ms n h1))
    · exact Bool.or_eq_true_iff.mpr (Or.inr (ih h2))

/-- Well-formedness carried through the fixed point: every marked helper is
justified by the current marking. -/
def ErrJustified (ms : List HelperModel) : Prop :=
  ∀ h ∈ ms, h.hasError = true → marksHelper ms h = true

theorem forall2_HMLe_refl (ms : List HelperModel) : List.Forall₂ HMLe ms ms := by
  induction ms with
  | nil => exact List.Forall₂.nil
  | cons a l ih => exact List.Forall₂.cons (HMLe_refl a) ih

theorem forall2_HMLe_trans {a b c : List HelperModel}
    (h1 : List.Forall₂ HMLe a b) (h2 : List.Forall₂ HMLe b c) :
    List.Forall₂ HMLe a c := by
  induction h1 generalizing c with
  | nil => cases h2; exact List.Forall₂.nil
  | @cons x y l1 l2 hxy _ ih =>
    cases h2 with
    | cons hyz htl => exact List.Forall₂.cons (HMLe_trans hxy hyz) (ih htl)

theorem forall2_HMLe_set (ms : List HelperModel) (i : Nat) (h : HelperModel)
    (hget : ms[i]? = some h) :
    List.Forall₂ HMLe ms (ms.set i { h with hasError := true }) := by
  induction ms generalizing i with
  | nil => simp at hget
  | cons a l ih =>
    cases i with
    | zero =>
      simp at hget
      subst hget
      exact List.Forall₂.cons ⟨rfl, rfl, fun _ => rfl⟩ (forall2_HMLe_refl l)
    | succ j =>
      simp only [List.getElem?_cons_succ] at hget
      simpa [List.set] using List.Forall₂.cons (HMLe_refl a) (ih j hget)

theorem errPassFrom_mono (ms : List HelperModel) (fuel i : Nat) :
    List.Forall₂ HMLe ms (errPassFrom ms fuel i).1 := by
  induction fuel generalizing ms i with
  | zero => exact forall2_HMLe_refl ms
  | succ f ih =>
    unfold errPassFrom
    cases hget : ms[i]? with
    | none => exact forall2_HMLe_refl ms
    | some h =>
      dsimp only
      by_cases hf : (!h.hasError && marksHelper ms h) = true
      · rw [if_pos hf]
        have h1 := forall2_HMLe_set ms i h hget
        have h2 := ih (ms.set i { h with hasError := true }) (i + 1)
        exact forall2_HMLe_trans h1 h2
      · rw [if_neg hf]
        exact ih ms (i + 1)

theorem errPassFrom_nochange (ms : List HelperModel) (fuel i : Nat)
    (h : (errPassFrom ms fuel i).2 = false) : (errPassFrom ms fuel i).1 = ms := by
  induction fuel generalizing ms i with
  | zero => rfl
  | succ f ih =>
    unfold errPassFrom at h ⊢
    cases hget : ms[i]? with
    | none => rfl
    | some hm =>
      rw [hget] at h
      dsimp only at h ⊢
      by_cases hf : (!hm.hasError && marksHelper ms hm) = true
      · rw [hf] at h
        simp at h
      · have hf2 : (!hm.hasError && marksHelper ms hm) = false := by simpa using hf
        rw [hf2] at h ⊢
        simp only [Bool.or_false, if_false, Bool.false_eq_true] at h ⊢
        exact ih ms (i + 1) h

theorem errPassFrom_stable (ms : List HelperModel) (fuel i : Nat)
    (hch : (errPassFrom ms fuel i).2 = false) :
    ∀ j hm, i ≤ j → j < i + fuel → ms[j]? = some hm → hm.hasError = false →
      marksHelper ms hm = false := by
  induction fuel generalizing i with
  | zero => intro j hm hij hj; omega
  | succ f ih =>
    unfold errPassFrom at hch
    intro j hm hij hj hget herr
    cases hgi : ms[i]? with
    | none =>
      have hlen : ms.length ≤ i := by
        by_contra hlt
        rw [List.getElem?_eq_getElem (by omega)] at hgi
        cases hgi
      rw [List.getElem?_eq_none (by omega)] at hget
      cases hget
    | some hmi =>
      rw [hgi] at hch
      dsimp only at hch
      by_cases hf : (!hmi.hasError && marksHelper ms hmi) = true
      · rw [hf] at hch
        simp at hch
      · have hf2 : (!hmi.hasError && marksHelper ms hmi) = false := by simpa using hf
        rw [hf2] at hch
        simp only [Bool.or_false, if_false, Bool.false_eq_true] at hch
        rcases Nat.eq_or_lt_of_le hij with heq | hlt
        · subst heq
          rw [hgi] at hget
          cases hget
          cases hmk : marksHelper ms hm with
          | false => rfl
          | true =>
            rw [herr, hmk] at hf2
            simp at hf2
        · exact ih (i + 1) hch j hm hlt (by omega) hget herr

theorem marksHelper_mono {ms ms2 : List HelperModel} (h : List.Forall₂ HMLe ms ms2)
    {a b : HelperModel} (hab : a.body = b.body) (hm : marksHelper ms a = true) :
    marksHelper ms2 b = true := by
  unfold marksHelper at hm ⊢
  rw [← hab]
  exact matchesErrList_mono h a.body hm

theorem errPassFrom_justified (ms : List HelperModel) (fuel i : Nat)
    (hj : ErrJustified ms) : ErrJustified (errPassFrom ms fuel i).1 := by
  induction fuel generalizing ms i with
  | zero => exact hj
  | succ f ih =>
    unfold errPassFrom
    cases hget : ms[i]? with
    | none => exact hj
    | some hm =>
      dsimp only
      by_cases hf : (!hm.hasError && marksHelper ms hm) = true
      · rw [if_pos hf]
        refine ih _ (i + 1) ?_
        have hle := forall2_HMLe_set ms i hm hget
        intro g hg hge
        rcases List.mem_or_eq_of_mem_set hg with hgm | hgeq
        · exact marksHelper_mono hle rfl (hj g hgm hge)
        · subst hgeq
          have hmk : marksHelper ms hm = true := by
            rcases Bool.and_eq_true _ _ |>.mp hf with ⟨_, h2⟩
            exact h2
          exact marksHelper_mono hle rfl hmk
      · rw [if_neg hf]
        exact ih ms (i + 1) hj

def markedCount (ms : List HelperModel) : Nat :=
  (ms.filter (fun h => h.hasError)).length

theorem markedCount_le_length (ms : List HelperModel) : markedCount ms ≤ ms.length :=
  List.length_filter_le _ ms

theorem markedCount_mono {ms ms2 : List HelperModel} (h : List.Forall₂ HMLe ms ms2) :
    markedCount ms ≤ markedCount ms2 := by
  induction h with
  | nil => exact Nat.le_refl 0
  | @cons a b l1 l2 hab htl ih =>
    unfold markedCount at ih ⊢
    cases ha : a.hasError with
    | false =>
      simp only [List.filter_cons, ha]
      cases hb : b.hasError <;> simp [hb] <;> omega
    | true =>
      have hb := hab.2.2 ha
      simp only [List.filter_cons, ha, hb]
      simpa using ih

theorem markedCount_set_true (ms : List HelperModel) (i : Nat) (hm : HelperModel)
    (hget : ms[i]? = some hm) (herr : hm.hasError = false) :
    markedCount (ms.set i { hm with hasError := true }) = markedCount ms + 1 := by
  induction ms generalizing i with
  | nil => simp at hget
  | cons a l ih =>
    cases i with
    | zero =>
      simp at hget
      subst hget
      unfold markedCount
      simp [List.filter_cons, herr]
    | succ j =>
      simp only [List.getElem?_cons_succ] at hget
      unfold markedCount at ih ⊢
      simp only [List.set, List.filter_cons]
      cases ha : a.hasError <;> simp [ha, ih j hget]

theorem errPassFrom_length (ms : List HelperModel) (fuel i : Nat) :
    (errPassFrom ms fuel i).1.length = ms.length := by
  induction fuel generalizing ms i with
  | zero => rfl
  | succ f ih =>
    unfold errPassFrom
    cases hget : ms[i]? with
    | none => rfl
    | some hm =>
      dsimp only
      by_cases hf : (!hm.hasError && marksHelper ms hm) = true
      · rw [if_pos hf]
        rw [ih]
        simp
      · rw [if_neg hf]
        exact ih ms (i + 1)

theorem errPassFrom_count_lt (ms : List HelperModel) (fuel i : Nat)
    (hch : (errPassFrom ms fuel i).2 = true) :
    markedCount ms < markedCount (errPassFrom ms fuel i).1 := by
  induction fuel generalizing ms i with
  | zero => simp [errPassFrom] at hch
  | succ f ih =>
    unfold errPassFrom at hch ⊢
    cases hget : ms[i]? with
    | none => rw [hget] at hch; cases hch
    | some hm =>
      rw [hget] at hch
      dsimp only at hch ⊢
      by_cases hf : (!hm.hasError && marksHelper ms hm) = true
      · rw [hf] at hch ⊢
        simp only [if_true] at hch ⊢
        have herr : hm.hasError = false := by
          rcases Bool.and_eq_true _ _ |>.mp hf with ⟨h1, _⟩
          simpa using h1
        have hset := markedCount_set_true ms i hm hget herr
        have hmono := markedCount_mono (errPassFrom_mono (ms.set i { hm with hasError := true }) f (i + 1))
        omega
      · have hf2 : (!hm.hasError && marksHelper ms hm) = false := by simpa using hf
        rw [hf2] at hch ⊢
        simp only [Bool.or_false, if_false, Bool.false_eq_true] at hch ⊢
        exact ih ms (i + 1) hch

theorem errLoop_stable (fuel : Nat) :
    ∀ ms : List HelperModel, ms.length - markedCount ms < fuel → ErrJustified ms →
      ErrJustified (errLoop fuel ms) ∧
      (∀ h ∈ errLoop fuel ms, h.hasError = false →
        marksHelper (errLoop fuel ms) h = false) := by
  induction fuel with
  | zero => intro ms hf; omega
  | succ f ih =>
    intro ms hf hj
    unfold errLoop
    dsimp only
    cases hch : (errPass ms).2 with
    | false =>
      simp only [Bool.false_eq_true, if_false]
      have hnc : (errPass ms).1 = ms := errPassFrom_nochange ms ms.length 0 hch
      rw [hnc]
      refine ⟨hj, ?_⟩
      intro h hm herr
      obtain ⟨j, hj2⟩ := List.getElem?_of_mem hm
      have hjlt : j < ms.length := by
        by_contra hge
        rw [List.getElem?_eq_none (by omega)] at hj2
        cases hj2
      exact errPassFrom_stable ms ms.length 0 hch j h (Nat.zero_le j) (by omega)
        hj2 herr
    | true =>
      simp only [if_true]
      have hlt := errPassFrom_count_lt ms ms.length 0 hch
      have hlen := errPassFrom_length ms ms.length 0
      have hle := markedCount_le_length (errPass ms).1
      refine ih (errPass ms).1 ?_ (errPassFrom_justified ms ms.length 0 hj)
      unfold errPass at hlt hlen hle ⊢
      omega

/-- C2: after the error-propagation fixed point stabilises, a helper carries
the fallible mark exactly when some node of its body is a fallible call,
contains a fallible nested child, or calls another helper that ends up
marked fallible — transitively through the helper call graph.  The
hypothesis states the invariant `populateHelpers` establishes: an initially
marked helper has a `WithError` node in its body. -/
theorem helper_error_fixed_point (ms : List HelperModel)
    (hcons : ∀ h ∈ ms, h.hasError = true →
      h.body.any (fun n => n.data.withError) = true) :
    ∀ h ∈ computeHelperErrors ms,
      (h.hasError = true ↔ marksHelper (computeHelperErrors ms) h = true) := by
  have hj : ErrJustified ms := fun h hm he =>
    matchesErrList_of_any_withError ms h.body (hcons h hm he)
  have hfuel : ms.length - markedCount ms < ms.length + 1 := by omega
  obtain ⟨hj2, hstab⟩ := errLoop_stable (ms.length + 1) ms hfuel hj
  have hce : computeHelperErrors ms = errLoop (ms.length + 1) ms := rfl
  rw [hce]
  intro h hm
  constructor
  · intro he
    exact hj2 h hm he
  · intro hmk
    by_contra hne
    have herr : h.hasError = false := by
      cases hh : h.hasError with
      | false => rfl
      | true => exact absurd hh hne
    have := hstab h hm herr
    rw [hmk] at this
    cases this

/-- Witness for C2: `H1` calls `H2` and `H2` calls a fallible custom
function; after the fixed point both are marked fallible and the
characterisation holds for every helper in the result. -/
theorem helper_error_fixed_point_witness :
    (∀ h ∈ [chainH1, chainH2], h.hasError = true →
      h.body.any (fun n => n.data.withError) = true) ∧
    (∀ h ∈ computeHelperErrors [chainH1, chainH2],
      (h.hasError = true ↔ marksHelper (computeHelperErrors [chainH1, chainH2]) h = true)) ∧
    (computeHelperErrors [chainH1, chainH2]).map (fun h => (h.name, h.hasError)) =
      [("H1", true), ("H2", true)] :=
  ⟨by decide, helper_error_fixed_point [chainH1, chainH2] (by decide), by decide⟩

theorem mem_subterms_self (t : GoType) : t ∈ subterms t := by
  cases t <;> simp [subterms]

theorem lookupName_none_not_mem (names : List (String × String)) (k : String)
    (h : lookupName names k = none) : k ∉ names.map Prod.fst := by
  intro hk
  obtain ⟨p, hp, hp1⟩ := List.mem_map.mp hk
  unfold lookupName at h
  rw [Option.map_eq_none'] at h
  have := List.find?_eq_none.mp h p hp
  simp [hp1] at this

theorem pairKey_mem_keyUniverse (U : List GoType) (a b : GoType)
    (ha : a ∈ U) (hb : b ∈ U) : pairKey a b ∈ keyUniverse U := by
  unfold keyUniverse
  rw [List.mem_flatten]
  refine ⟨_, List.mem_map_of_mem _ ha, ?_⟩
  rw [List.mem_flatten]
  refine ⟨_, List.mem_map_of_mem _ hb, ?_⟩
  simp

theorem lookupStructDef_fieldTy_mem (env : TypeEnv) (n : String) (sd : StructDef)
    (h : lookupStructDef env n = some sd) (f : FieldDef) (hf : f ∈ sd.fields) :
    f.ty ∈ envFieldTypes env := by
  unfold lookupStructDef at h
  rw [Option.map_eq_some'] at h
  obtain ⟨p, hp, hp2⟩ := h
  have hpm := List.mem_of_find?_eq_some hp
  unfold envFieldTypes
  rw [List.mem_flatten]
  refine ⟨_, List.mem_map_of_mem _ hpm, ?_⟩
  rw [List.mem_flatten]
  refine ⟨_, List.mem_map_of_mem (fun f => subterms f.ty) (hp2 ▸ hf), ?_⟩
  exact mem_subterms_self _

theorem underlyingStruct_fieldTy_mem (env : TypeEnv) (t : GoType) (sd : StructDef)
    (b : Bool) (h : underlyingStruct env t = some (sd, b)) (f : FieldDef)
    (hf : f ∈ sd.fields) : f.ty ∈ envFieldTypes env := by
  match t with
  | .ptr (.named n) =>
    unfold underlyingStruct at h
    rw [Option.map_eq_some'] at h
    obtain ⟨sd2, hsd, heq⟩ := h
    injection heq with h1 h2
    exact lookupStructDef_fieldTy_mem env n sd (h1 ▸ hsd) f hf
  | .named n =>
    unfold underlyingStruct at h
    rw [Option.map_eq_some'] at h
    obtain ⟨sd2, hsd, heq⟩ := h
    injection heq with h1 h2
    exact lookupStructDef_fieldTy_mem env n sd (h1 ▸ hsd) f hf
  | .scalar s => simp [underlyingStruct] at h
  | .ptr (.scalar s) => simp [underlyingStruct] at h
  | .ptr (.ptr t) => simp [underlyingStruct] at h
  | .ptr (.slice t) => simp [underlyingStruct] at h
  | .ptr (.array n t) => simp [underlyingStruct] at h
  | .ptr (.gomap k v) => simp [underlyingStruct] at h
  | .slice t => simp [underlyingStruct] at h
  | .array n t => simp [underlyingStruct] at h
  | .gomap k v => simp [underlyingStruct] at h

theorem walkPath_ty_mem (env : TypeEnv) : ∀ (segs : List String) (t : GoType)
    (base e : String) (ct : GoType),
    walkPath env t base segs = some (e, ct) → ct = t ∨ ct ∈ envFieldTypes env := by
  intro segs
  induction segs with
  | nil =>
    intro t base e ct h
    unfold walkPath at h
    injection h with h
    injection h with h1 h2
    exact Or.inl h2.symm
  | cons seg rest ih =>
    intro t base e ct h
    unfold walkPath at h
    cases hu : underlyingStruct env t with
    | none => rw [hu] at h; cases h
    | some sb =>
      rw [hu] at h
      obtain ⟨st, bb⟩ := sb
      dsimp only at h
      cases hfind : st.fields.find? (fun ff => ff.exported && ff.name == seg) with
      | none => rw [hfind] at h; cases h
      | some f =>
        rw [hfind] at h
        have hmem := List.mem_of_find?_eq_some hfind
        have hty := underlyingStruct_fieldTy_mem env t st bb hu f hmem
        rcases ih f.ty _ e ct h with h1 | h1
        · exact Or.inr (h1 ▸ hty)
        · exact Or.inr h1

theorem findMatchingSourceField_mem (src : StructDef) (n : String) (f : FieldDef)
    (h : findMatchingSourceField src n = some f) : f ∈ src.fields := by
  unfold findMatchingSourceField at h
  exact List.mem_of_find?_eq_some h

theorem findTaggedSourceField_mem (src : StructDef) (n : String) (f : FieldDef)
    (h : findTaggedSourceField src n = some f) : f ∈ src.fields := by
  unfold findTaggedSourceField at h
  exact List.mem_of_find?_eq_some h

theorem helperSourceField_mem (sStruct : StructDef) (df : FieldDef) (f : FieldDef)
    (h : helperSourceField sStruct df = some f) : f ∈ sStruct.fields := by
  unfold helperSourceField at h
  cases h1 : findMatchingSourceField sStruct df.name with
  | some f1 =>
    rw [h1] at h
    injection h with h
    exact findMatchingSourceField_mem sStruct df.name f (h ▸ h1)
  | none =>
    rw [h1] at h
    cases h2 : findTaggedSourceField sStruct df.name with
    | some f2 =>
      rw [h2] at h
      injection h with h
      exact findTaggedSourceField_mem sStruct df.name f (h ▸ h2)
    | none =>
      rw [h2] at h
      dsimp only at h
      split at h
      · cases h3 : findMatchingSourceField sStruct (tagLookup df.tag "map") with
        | some f3 =>
          rw [h3] at h
          injection h with h
          exact findMatchingSourceField_mem sStruct _ f (h ▸ h3)
        | none =>
          rw [h3] at h
          exact findMatchingSourceField_mem sStruct _ f h
      · cases h

theorem set_getElem?_self {α : Type} (l : List α) (i : Nat) (a : α)
    (h : l[i]? = some a) : l.set i a = l := by
  induction l generalizing i with
  | nil => simp at h
  | cons x xs ih =>
    cases i with
    | zero =>
      simp only [List.getElem?_cons_zero, Option.some.injEq] at h
      simp [List.set, h]
    | succ j =>
      simp only [List.getElem?_cons_succ] at h
      simp [List.set, ih j h]

theorem stInv_length_le (U : List GoType) (s : GenState) (hinv : stInv U s) :
    s.helperPlans.length ≤ (keyUniverse U).length := by
  obtain ⟨h1, h2, h3, h4, h5⟩ := hinv
  have hp1 : List.Subperm (s.helperPlans.map planKey) (s.helperNames.map Prod.fst) :=
    List.Nodup.subperm h3 (fun k hk => h4 k hk)
  have hp2 : List.Subperm (s.helperNames.map Prod.fst) (keyUniverse U) :=
    List.Nodup.subperm h1 (fun k hk => h2 k hk)
  have := Nat.le_trans hp1.length_le hp2.length_le
  simpa using this

theorem stInv_reserve (U : List GoType) (s : GenState) (key name : String)
    (hinv : stInv U s) (hku : key ∈ keyUniverse U)
    (hnot : key ∉ s.helperNames.map Prod.fst) :
    stInv U { s with helperNames := (key, name) :: s.helperNames } := by
  obtain ⟨h1, h2, h3, h4, h5⟩ := hinv
  refine ⟨?_, ?_, ?_, ?_, ?_⟩ <;> dsimp only
  · rw [List.map_cons, List.nodup_cons]
    exact ⟨hnot, h1⟩
  · intro k hk
    rw [List.map_cons, List.mem_cons] at hk
    rcases hk with hk | hk
    · subst hk; exact hku
    · exact h2 k hk
  · exact h3
  · intro k hk
    rw [List.map_cons, List.mem_cons]
    exact Or.inr (h4 k hk)
  · exact h5

theorem stInv_reserve_plan (U : List GoType) (s : GenState) (key name : String)
    (plan : HelperPlan) (hinv : stInv U s) (hku : key ∈ keyUniverse U)
    (hnot : key ∉ s.helperNames.map Prod.fst) (hpk : planKey plan = key)
    (hps : plan.srcGoType ∈ U) (hpd : plan.destGoType ∈ U) :
    stInv U { s with helperNames := (key, name) :: s.helperNames,
                     helperPlans := s.helperPlans ++ [plan] } := by
  obtain ⟨h1, h2, h3, h4, h5⟩ := hinv
  refine ⟨?_, ?_, ?_, ?_, ?_⟩ <;> dsimp only
  · rw [List.map_cons, List.nodup_cons]
    exact ⟨hnot, h1⟩
  · intro k hk
    rw [List.map_cons, List.mem_cons] at hk
    rcases hk with hk | hk
    · subst hk; exact hku
    · exact h2 k hk
  · rw [List.map_append]
    have hperm : (List.map planKey s.helperPlans ++ List.map planKey [plan]).Perm
        (List.map planKey [plan] ++ List.map planKey s.helperPlans) :=
      List.perm_append_comm
    rw [hperm.nodup_iff, List.map_cons, List.map_nil, List.singleton_append,
        List.nodup_cons]
    constructor
    · intro hk
      rw [hpk] at hk
      exact hnot (h4 key hk)
    · exact h3
  · intro k hk
    rw [List.map_append, List.mem_append] at hk
    rcases hk with hk | hk
    · rw [List.map_cons, List.mem_cons]
      exact Or.inr (h4 k hk)
    · rw [List.map_cons, List.map_nil, List.mem_singleton] at hk
      subst hk
      rw [List.map_cons, List.mem_cons]
      exact Or.inl hpk
  · intro p hp
    rw [List.mem_append] at hp
    rcases hp with hp | hp
    · exact h5 p hp
    · rw [List.mem_singleton] at hp
      subst hp
      exact ⟨hps, hpd⟩

theorem ensureStructHelper_state (U : List GoType) (E : GenEnv) (s : GenState)
    (src dst : GoType) (hs : src ∈ U) (hd : dst ∈ U) (hinv : stInv U s) :
    stInv U (ensureStructHelper E s src dst).2 ∧
    ∃ t, (ensureStructHelper E s src dst).2.helperPlans = s.helperPlans ++ t := by
  unfold ensureStructHelper
  dsimp only
  cases hlk : lookupName s.helperNames (pairKey src dst) with
  | some name => exact ⟨hinv, [], by simp⟩
  | none =>
    have hnot : pairKey src dst ∉ s.helperNames.map Prod.fst :=
      lookupName_none_not_mem _ _ hlk
    have hku := pairKey_mem_keyUniverse U src dst hs hd
    cases hus : underlyingStruct E.env src with
    | none =>
      refine ⟨stInv_reserve U s _ _ hinv hku hnot, [], by simp⟩
    | some sb =>
      obtain ⟨st, sPtr⟩ := sb
      dsimp only
      repeat' split
      all_goals exact ⟨stInv_reserve_plan U s _ _ _ hinv hku hnot rfl hs hd, _, rfl⟩

set_option maxHeartbeats 2000000 in
theorem buildAssignmentNodes_state (U : List GoType) (hcl : subClosed U) (E : GenEnv) :
    ∀ (destType srcType : GoType) (destExpr srcExpr cm : String) (uc : Bool)
      (s : GenState), destType ∈ U → srcType ∈ U → stInv U s →
      stInv U (buildAssignmentNodes E destExpr srcExpr destType srcType cm uc s).2 ∧
      ∃ t, (buildAssignmentNodes E destExpr srcExpr destType srcType cm uc s).2.helperPlans
            = s.helperPlans ++ t := by
  intro destType
  induction destType with
  | scalar sn =>
    intro srcType de se cm uc s hdt hst hinv
    cases srcType <;>
      (simp only [buildAssignmentNodes]
       repeat' split
       all_goals first
         | exact ⟨hinv, [], by simp⟩
         | exact ensureStructHelper_state U E s _ _ hst hdt hinv)
  | named nn =>
    intro srcType de se cm uc s hdt hst hinv
    cases srcType <;>
      (simp only [buildAssignmentNodes]
       repeat' split
       all_goals first
         | exact ⟨hinv, [], by simp⟩
         | exact ensureStructHelper_state U E s _ _ hst hdt hinv)
  | ptr delem ih =>
    intro srcType de se cm uc s hdt hst hinv
    cases srcType <;>
      (simp only [buildAssignmentNodes]
       try dsimp only
       repeat' split
       all_goals try (first
         | exact ⟨hinv, [], by simp⟩
         | exact ensureStructHelper_state U E s _ _ hst hdt hinv)
       all_goals
         (rename_i r heq
          repeat' split at heq
          all_goals try (first
            | cases heq
            | (injection heq with heq2
               subst heq2)))
       all_goals first
         | exact ⟨hinv, [], by simp⟩
         | exact ensureStructHelper_state U E s _ _ hst hdt hinv)
  | slice delem ih =>
    intro srcType de se cm uc s hdt hst hinv
    have hde : delem ∈ U := hcl _ hdt _ (List.mem_cons_of_mem _ (mem_subterms_self _))
    cases srcType with
    | slice selem =>
      have hse : selem ∈ U := hcl _ hst _ (List.mem_cons_of_mem _ (mem_subterms_self _))
      simp only [buildAssignmentNodes]
      try dsimp only
      repeat' split
      all_goals try (first
        | exact ⟨hinv, [], by simp⟩
        | exact ensureStructHelper_state U E s _ _ hst hdt hinv
        | exact ih selem "mapped" "v" cm uc s hde hse hinv)
      all_goals
        (rename_i r heq
         repeat' split at heq
         all_goals try (first
           | cases heq
           | (injection heq with heq2
              subst heq2)))
      all_goals first
        | exact ⟨hinv, [], by simp⟩
        | exact ensureStructHelper_state U E s _ _ hst hdt hinv
        | exact ih selem "mapped" "v" cm uc s hde hse hinv
    | scalar x =>
      simp only [buildAssignmentNodes]
      try dsimp only
      repeat' split
      all_goals try (first
        | exact ⟨hinv, [], by simp⟩
        | exact ensureStructHelper_state U E s _ _ hst hdt hinv)
      all_goals
        (rename_i r heq
         repeat' split at heq
         all_goals try (first
           | cases heq
           | (injection heq with heq2
              subst heq2)))
      all_goals first
        | exact ⟨hinv, [], by simp⟩
        | exact ensureStructHelper_state U E s _ _ hst hdt hinv
    | named x =>
      simp only [buildAssignmentNodes]
      try dsimp only
      repeat' split
      all_goals try (first
        | exact ⟨hinv, [], by simp⟩
        | exact ensureStructHelper_state U E s _ _ hst hdt hinv)
      all_goals
        (rename_i r heq
         repeat' split at heq
         all_goals try (first
           | cases heq
           | (injection heq with heq2
              subst heq2)))
      all_goals first
        | exact ⟨hinv, [], by simp⟩
        | exact ensureStructHelper_state U E s _ _ hst hdt hinv
    | ptr x =>
      simp only [buildAssignmentNodes]
      try dsimp only
      repeat' split
      all_goals try (first
        | exact ⟨hinv, [], by simp⟩
        | exact ensureStructHelper_state U E s _ _ hst hdt hinv)
      all_goals
        (rename_i r heq
         repeat' split at heq
         all_goals try (first
           | cases heq
           | (injection heq with heq2
              subst heq2)))
      all_goals first
        | exact ⟨hinv, [], by simp⟩
        | exact ensureStructHelper_state U E s _ _ hst hdt hinv
    | array n x =>
      simp only [buildAssignmentNodes]
      try dsimp only
      repeat' split
      all_goals try (first
        | exact ⟨hinv, [], by simp⟩
        | exact ensureStructHelper_state U E s _ _ hst hdt hinv)
      all_goals
        (rename_i r heq
         repeat' split at heq
         all_goals try (first
           | cases heq
           | (injection heq with heq2
              subst heq2)))
      all_goals first
        | exact ⟨hinv, [], by simp⟩
        | exact ensureStructHelper_state U E s _ _ hst hdt hinv
    | gomap k v =>
      simp only [buildAssignmentNodes]
      try dsimp only
      repeat' split
      all_goals try (first
        | exact ⟨hinv, [], by simp⟩
        | exact ensureStructHelper_state U E s _ _ hst hdt hinv)
      all_goals
        (rename_i r heq
         repeat' split at heq
         all_goals try (first
           | cases heq
           | (injection heq with heq2
              subst heq2)))
      all_goals first
        | exact ⟨hinv, [], by simp⟩
        | exact ensureStructHelper_state U E s _ _ hst hdt hinv
  | array dn delem ih =>
    intro srcType de se cm uc s hdt hst hinv
    have hde : delem ∈ U := hcl _ hdt _ (List.mem_cons_of_mem _ (mem_subterms_self _))
    cases srcType with
    | array sn selem =>
      have hse : selem ∈ U := hcl _ hst _ (List.mem_cons_of_mem _ (mem_subterms_self _))
      simp only [buildAssignmentNodes]
      try dsimp only
      repeat' split
      all_goals try (first
        | exact ⟨hinv, [], by simp⟩
        | exact ensureStructHelper_state U E s _ _ hst hdt hinv
        | exact ih selem (de ++ "[i]") (se ++ "[i]") cm uc s hde hse hinv)
      all_goals
        (rename_i r heq
         repeat' split at heq
         all_goals try (first
           | cases heq
           | (injection heq with heq2
              subst heq2)))
      all_goals first
        | exact ⟨hinv, [], by simp⟩
        | exact ensureStructHelper_state U E s _ _ hst hdt hinv
        | exact ih selem (de ++ "[i]") (se ++ "[i]") cm uc s hde hse hinv
    | scalar x =>
      simp only [buildAssignmentNodes]
      try dsimp only
      repeat' split
      all_goals try (first
        | exact ⟨hinv, [], by simp⟩
        | exact ensureStructHelper_state U E s _ _ hst hdt hinv)
      all_goals
        (rename_i r heq
         repeat' split at heq
         all_goals try (first
           | cases heq
           | (injection heq with heq2
              subst heq2)))
      all_goals first
        | exact ⟨hinv, [], by simp⟩
        | exact ensureStructHelper_state U E s _ _ hst hdt hinv
    | named x =>
      simp only [buildAssignmentNodes]
      try dsimp only
      repeat' split
      all_goals try (first
        | exact ⟨hinv, [], by simp⟩
        | exact ensureStructHelper_state U E s _ _ hst hdt hinv)
      all_goals
        (rename_i r heq
         repeat' split at heq
         all_goals try (first
           | cases heq
           | (injection heq with heq2
              subst heq2)))
      all_goals first
        | exact ⟨hinv, [], by simp⟩
        | exact ensureStructHelper_state U E s _ _ hst hdt hinv
    | ptr x =>
      simp only [buildAssignmentNodes]
      try dsimp only
      repeat' split
      all_goals try (first
        | exact ⟨hinv, [], by simp⟩
        | exact ensureStructHelper_state U E s _ _ hst hdt hinv)
      all_goals
        (rename_i r heq
         repeat' split at heq
         all_goals try (first
           | cases heq
           | (injection heq with heq2
              subst heq2)))
      all_goals first
        | exact ⟨hinv, [], by simp⟩
        | exact ensureStructHelper_state U E s _ _ hst hdt hinv
    | slice x =>
      simp only [buildAssignmentNodes]
      try dsimp only
      repeat' split
      all_goals try (first
        | exact ⟨hinv, [], by simp⟩
        | exact ensureStructHelper_state U E s _ _ hst hdt hinv)
      all_goals
        (rename_i r heq
         repeat' split at heq
         all_goals try (first
           | cases heq
           | (injection heq with heq2
              subst heq2)))
      all_goals first
        | exact ⟨hinv, [], by simp⟩
        | exact ensureStructHelper_state U E s _ _ hst hdt hinv
    | gomap k v =>
      simp only [buildAssignmentNodes]
      try dsimp only
      repeat' split
      all_goals try (first
        | exact ⟨hinv, [], by simp⟩
        | exact ensureStructHelper_state U E s _ _ hst hdt hinv)
      all_goals
        (rename_i r heq
         repeat' split at heq
         all_goals try (first
           | cases heq
           | (injection heq with heq2
              subst heq2)))
      all_goals first
        | exact ⟨hinv, [], by simp⟩
        | exact ensureStructHelper_state U E s _ _ hst hdt hinv
  | gomap dk dv ihk ihv =>
    intro srcType de se cm uc s hdt hst hinv
    have hdv : dv ∈ U := hcl _ hdt _
      (List.mem_cons_of_mem _ (List.mem_append_right _ (mem_subterms_self _)))
    cases srcType with
    | gomap sk sv =>
      have hsv : sv ∈ U := hcl _ hst _
        (List.mem_cons_of_mem _ (List.mem_append_right _ (mem_subterms_self _)))
      simp only [buildAssignmentNodes]
      try dsimp only
      repeat' split
      all_goals try (first
        | exact ⟨hinv, [], by simp⟩
        | exact ensureStructHelper_state U E s _ _ hst hdt hinv
        | exact ihv sv "mapped" "v" cm uc s hdv hsv hinv)
      all_goals
        (rename_i r heq
         repeat' split at heq
         all_goals try (first
           | cases heq
           | (injection heq with heq2
              subst heq2)))
      all_goals first
        | exact ⟨hinv, [], by simp⟩
        | exact ensureStructHelper_state U E s _ _ hst hdt hinv
        | exact ihv sv "mapped" "v" cm uc s hdv hsv hinv
    | scalar x =>
      simp only [buildAssignmentNodes]
      try dsimp only
      repeat' split
      all_goals try (first
        | exact ⟨hinv, [], by simp⟩
        | exact ensureStructHelper_state U E s _ _ hst hdt hinv)
      all_goals
        (rename_i r heq
         repeat' split at heq
         all_goals try (first
           | cases heq
           | (injection heq with heq2
              subst heq2)))
      all_goals first
        | exact ⟨hinv, [], by simp⟩
        | exact ensureStructHelper_state U E s _ _ hst hdt hinv
    | named x =>
      simp only [buildAssignmentNodes]
      try dsimp only
      repeat' split
      all_goals try (first
        | exact ⟨hinv, [], by simp⟩
        | exact ensureStructHelper_state U E s _ _ hst hdt hinv)
      all_goals
        (rename_i r heq
         repeat' split at heq
         all_goals try (first
           | cases heq
           | (injection heq with heq2
              subst heq2)))
      all_goals first
        | exact ⟨hinv, [], by simp⟩
        | exact ensureStructHelper_state U E s _ _ hst hdt hinv
    | ptr x =>
      simp only [buildAssignmentNodes]
      try dsimp only
      repeat' split
      all_goals try (first
        | exact ⟨hinv, [], by simp⟩
        | exact ensureStructHelper_state U E s _ _ hst hdt hinv)
      all_goals
        (rename_i r heq
         repeat' split at heq
         all_goals try (first
           | cases heq
           | (injection heq with heq2
              subst heq2)))
      all_goals first
        | exact ⟨hinv, [], by simp⟩
        | exact ensureStructHelper_state U E s _ _ hst hdt hinv
    | slice x =>
      simp only [buildAssignmentNodes]
      try dsimp only
      repeat' split
      all_goals try (first
        | exact ⟨hinv, [], by simp⟩
        | exact ensureStructHelper_state U E s _ _ hst hdt hinv)
      all_goals
        (rename_i r heq
         repeat' split at heq
         all_goals try (first
           | cases heq
           | (injection heq with heq2
              subst heq2)))
      all_goals first
        | exact ⟨hinv, [], by simp⟩
        | exact ensureStructHelper_state U E s _ _ hst hdt hinv
    | array n x =>
      simp only [buildAssignmentNodes]
      try dsimp only
      repeat' split
      all_goals try (first
        | exact ⟨hinv, [], by simp⟩
        | exact ensureStructHelper_state U E s _ _ hst hdt hinv)
      all_goals
        (rename_i r heq
         repeat' split at heq
         all_goals try (first
           | cases heq
           | (injection heq with heq2
              subst heq2)))
      all_goals first
        | exact ⟨hinv, [], by simp⟩
        | exact ensureStructHelper_state U E s _ _ hst hdt hinv

theorem ite_none_some {α : Type} {c : Prop} [inst : Decidable c] {x : Option α}
    {a : α} (h : (if c then x else none) = some a) : x = some a := by
  split at h
  · exact h
  · cases h

theorem resolveHelperField_state (U : List GoType) (hcl : subClosed U) (E : GenEnv)
    (plan : HelperPlan) (sStruct : StructDef) (df : FieldDef) (s : GenState)
    (henv : ∀ t ∈ envFieldTypes E.env, t ∈ U)
    (hdf : df.ty ∈ U) (hsrc : plan.srcGoType ∈ U)
    (hflds : ∀ f ∈ sStruct.fields, f.ty ∈ U)
    (hinv : stInv U s) :
    ∀ r s1, resolveHelperField E plan sStruct df s = .ok (r, s1) →
      stInv U s1 ∧ ∃ t, s1.helperPlans = s.helperPlans ++ t := by
  intro r s1 h
  unfold resolveHelperField at h
  dsimp only at h
  cases hw0 : (if (tagLookup df.tag "mapsrc" != "" && tagLookup df.tag "mapfn" == "") = true
      then walkPath E.env plan.srcGoType "in" (goSplitDots (tagLookup df.tag "mapsrc"))
      else none) with
  | some pr =>
    rw [hw0] at h
    obtain ⟨expr, ct⟩ := pr
    dsimp only at h
    injection h with h2
    have hs : (buildAssignmentNodes E ("dst." ++ df.name) expr df.ty ct "" false s).2 = s1 :=
      congrArg Prod.snd h2
    subst hs
    have hct : ct ∈ U := by
      rcases walkPath_ty_mem E.env _ _ _ _ _ (ite_none_some hw0) with h1 | h1
      · exact h1 ▸ hsrc
      · exact henv _ h1
    exact buildAssignmentNodes_state U hcl E df.ty ct ("dst." ++ df.name) expr
      "" false s hdf hct hinv
  | none =>
    rw [hw0] at h
    dsimp only at h
    split at h
    · injection h with h2
      have hs : s = s1 := congrArg Prod.snd h2
      subst hs
      exact ⟨hinv, [], by simp⟩
    · split at h
      · repeat' split at h
        all_goals first
          | (injection h with h2
             have hs : s = s1 := congrArg Prod.snd h2
             subst hs
             exact ⟨hinv, [], by simp⟩)
          | injection h
      · cases hsf : helperSourceField sStruct df with
        | some f =>
          rw [hsf] at h
          dsimp only at h
          injection h with h2
          have hs : (buildAssignmentNodes E ("dst." ++ df.name) ("in." ++ f.name)
              df.ty f.ty "" false s).2 = s1 := congrArg Prod.snd h2
          subst hs
          have hfu : f.ty ∈ U := hflds f (helperSourceField_mem sStruct df f hsf)
          exact buildAssignmentNodes_state U hcl E df.ty f.ty
            ("dst." ++ df.name) ("in." ++ f.name) "" false s hdf hfu hinv
        | none =>
          rw [hsf] at h
          dsimp only at h
          injection h with h2
          have hs : s = s1 := congrArg Prod.snd h2
          subst hs
          exact ⟨hinv, [], by simp⟩

theorem resolveHelperFields_state (U : List GoType) (hcl : subClosed U) (E : GenEnv)
    (plan : HelperPlan) (sStruct : StructDef)
    (henv : ∀ t ∈ envFieldTypes E.env, t ∈ U)
    (hsrc : plan.srcGoType ∈ U)
    (hflds : ∀ f ∈ sStruct.fields, f.ty ∈ U) :
    ∀ (fs : List FieldDef) (s : GenState) (r : List AssignmentPlan) (s1 : GenState),
      (∀ f ∈ fs, f.ty ∈ U) → stInv U s →
      resolveHelperFields E plan sStruct fs s = .ok (r, s1) →
      stInv U s1 ∧ ∃ t, s1.helperPlans = s.helperPlans ++ t := by
  intro fs
  induction fs with
  | nil =>
    intro s r s1 hfs hinv h
    unfold resolveHelperFields at h
    injection h with h2
    have hs : s = s1 := congrArg Prod.snd h2
    subst hs
    exact ⟨hinv, [], by simp⟩
  | cons df rest ih =>
    intro s r s1 hfs hinv h
    by_cases hex : df.exported
    · simp only [resolveHelperFields, hex, if_pos] at h
      cases hhd : resolveHelperField E plan sStruct df s with
      | error e => rw [hhd] at h; cases h
      | ok rr =>
        obtain ⟨plansHere, sm⟩ := rr
        rw [hhd] at h
        dsimp only at h
        cases htl : resolveHelperFields E plan sStruct rest sm with
        | error e => rw [htl] at h; cases h
        | ok rr2 =>
          obtain ⟨plansRest, s2x⟩ := rr2
          rw [htl] at h
          dsimp only at h
          injection h with h2
          have hs : s2x = s1 := congrArg Prod.snd h2
          obtain ⟨hinv1, t1, ht1⟩ := resolveHelperField_state U hcl E plan sStruct df s
            henv (hfs df (List.mem_cons_self df rest)) hsrc hflds hinv
            plansHere sm hhd
          obtain ⟨hinv2, t2, ht2⟩ := ih sm plansRest s2x
            (fun f hf => hfs f (List.mem_cons_of_mem df hf)) hinv1 htl
          rw [← hs]
          exact ⟨hinv2, t1 ++ t2, by rw [ht2, ht1, List.append_assoc]⟩
    · simp only [resolveHelperFields, hex] at h
      exact ih s r s1 (fun f hf => hfs f (List.mem_cons_of_mem df hf)) hinv
        (by simpa using h)

theorem helperStructPlans_state (U : List GoType) (hcl : subClosed U) (E : GenEnv)
    (plan : HelperPlan) (s : GenState)
    (henv : ∀ t ∈ envFieldTypes E.env, t ∈ U)
    (hsrc : plan.srcGoType ∈ U)
    (hinv : stInv U s) :
    ∀ r s1, helperStructPlans E plan s = .ok (r, s1) →
      stInv U s1 ∧ ∃ t, s1.helperPlans = s.helperPlans ++ t := by
  intro r s1 h
  unfold helperStructPlans at h
  cases hus : underlyingStruct E.env plan.srcGoType with
  | none =>
    rw [hus] at h
    dsimp only at h
    injection h with h2
    have hs : s = s1 := congrArg Prod.snd h2
    subst hs
    exact ⟨hinv, [], by simp⟩
  | some sp =>
    rw [hus] at h
    obtain ⟨sStruct, sb⟩ := sp
    cases hud : underlyingStruct E.env plan.destGoType with
    | none =>
      rw [hud] at h
      dsimp only at h
      injection h with h2
      have hs : s = s1 := congrArg Prod.snd h2
      subst hs
      exact ⟨hinv, [], by simp⟩
    | some dp =>
      rw [hud] at h
      obtain ⟨dStruct, db⟩ := dp
      dsimp only at h
      exact resolveHelperFields_state U hcl E plan sStruct henv hsrc
        (fun f hf => henv _ (underlyingStruct_fieldTy_mem E.env _ _ _ hus f hf))
        dStruct.fields s r s1
        (fun f hf => henv _ (underlyingStruct_fieldTy_mem E.env _ _ _ hud f hf))
        hinv h

theorem mem_of_getElem?_some {α : Type} {l : List α} {i : Nat} {a : α}
    (h : l[i]? = some a) : a ∈ l := by
  induction l generalizing i with
  | nil => simp at h
  | cons x xs ih =>
    cases i with
    | zero =>
      simp only [List.getElem?_cons_zero, Option.some.injEq] at h
      exact h ▸ List.mem_cons_self x xs
    | succ j =>
      simp only [List.getElem?_cons_succ] at h
      exact List.mem_cons_of_mem x (ih h)

theorem lt_of_getElem?_some {α : Type} {l : List α} {i : Nat} {a : α}
    (h : l[i]? = some a) : i < l.length := by
  by_contra hge
  rw [List.getElem?_eq_none (by omega)] at h
  cases h

theorem getElem?_append_left' {α : Type} (l₁ l₂ : List α) (i : Nat)
    (h : i < l₁.length) : (l₁ ++ l₂)[i]? = l₁[i]? := by
  induction l₁ generalizing i with
  | nil => simp at h
  | cons x xs ih =>
    cases i with
    | zero => simp
    | succ j =>
      simp only [List.cons_append, List.getElem?_cons_succ]
      exact ih j (by simpa using h)

theorem stInv_set_populated (U : List GoType) (sB : GenState) (ms : List HelperModel)
    (i : Nat) (plan : HelperPlan) (hinv : stInv U sB)
    (hget : sB.helperPlans[i]? = some plan) :
    stInv U { helperNames := sB.helperNames,
              helperPlans := sB.helperPlans.set i { plan with populated := true },
              helperModels := ms } := by
  obtain ⟨h1, h2, h3, h4, h5⟩ := hinv
  have hmapget : (sB.helperPlans.map planKey)[i]? = some (planKey plan) := by
    rw [List.getElem?_map, hget]
    rfl
  have hpk : planKey { plan with populated := true } = planKey plan := rfl
  refine ⟨h1, h2, ?_, ?_, ?_⟩ <;> dsimp only
  · rw [List.map_set, hpk, set_getElem?_self _ _ _ hmapget]
    exact h3
  · intro k hk
    rw [List.map_set, hpk, set_getElem?_self _ _ _ hmapget] at hk
    exact h4 k hk
  · intro p hp
    rcases List.mem_or_eq_of_mem_set hp with hp | hp
    · exact h5 p hp
    · subst hp
      exact h5 plan (mem_of_getElem?_some hget)

theorem populateOne_state (U : List GoType) (hcl : subClosed U) (E : GenEnv)
    (henv : ∀ t ∈ envFieldTypes E.env, t ∈ U)
    (s : GenState) (i : Nat) (s1 : GenState) (hinv : stInv U s)
    (h : populateOne E s i = .ok s1) :
    stInv U s1 ∧ s.helperPlans.length ≤ s1.helperPlans.length := by
  unfold populateOne at h
  cases hget : s.helperPlans[i]? with
  | none =>
    rw [hget] at h
    injection h with h2
    subst h2
    exact ⟨hinv, Nat.le_refl _⟩
  | some plan =>
    rw [hget] at h
    dsimp only at h
    have hpm : plan ∈ s.helperPlans := mem_of_getElem?_some hget
    have hpu := hinv.2.2.2.2 plan hpm
    have hilt : i < s.helperPlans.length := lt_of_getElem?_some hget
    split at h
    · injection h with h2
      subst h2
      exact ⟨hinv, Nat.le_refl _⟩
    · split at h
      · injection h with h2
        subst h2
        obtain ⟨hinv1, t, ht⟩ := buildAssignmentNodes_state U hcl E plan.destGoType
          plan.srcGoType "dst" "in" "" false s hpu.2 hpu.1 hinv
        have hget1 : (buildAssignmentNodes E "dst" "in" plan.destGoType plan.srcGoType
            "" false s).2.helperPlans[i]? = some plan := by
          rw [ht, getElem?_append_left' _ _ i hilt, hget]
        refine ⟨stInv_set_populated U _ _ i plan hinv1 hget1, ?_⟩
        dsimp only
        rw [List.length_set, ht, List.length_append]
        omega
      · split at h
        · injection h with h2
          subst h2
          refine ⟨stInv_set_populated U s _ i plan hinv hget, ?_⟩
          dsimp only
          rw [List.length_set]
        · cases hsp : helperStructPlans E plan s with
          | error e => rw [hsp] at h; injection h
          | ok r2 =>
            obtain ⟨plans2, sm⟩ := r2
            rw [hsp] at h
            dsimp only at h
            obtain ⟨hinv1, t, ht⟩ := helperStructPlans_state U hcl E plan s henv
              hpu.1 hinv plans2 sm hsp
            have hget1 : sm.helperPlans[i]? = some plan := by
              rw [ht, getElem?_append_left' _ _ i hilt, hget]
            split at h
            · injection h with h2
              subst h2
              refine ⟨stInv_set_populated U sm _ i plan hinv1 hget1, ?_⟩
              dsimp only
              rw [List.length_set, ht, List.length_append]
              omega
            · injection h with h2
              subst h2
              refine ⟨stInv_set_populated U sm _ i plan hinv1 hget1, ?_⟩
              dsimp only
              rw [List.length_set, ht, List.length_append]
              omega

theorem populateLoop_state (U : List GoType) (hcl : subClosed U) (E : GenEnv)
    (henv : ∀ t ∈ envFieldTypes E.env, t ∈ U) :
    ∀ (fuel : Nat) (s : GenState) (i : Nat), stInv U s →
      i ≤ s.helperPlans.length →
      (keyUniverse U).length + 1 ≤ fuel + i →
      populateLoop E fuel s i ≠ .error .fuelOut ∧
      ∀ s2, populateLoop E fuel s i = .ok s2 → stInv U s2 := by
  intro fuel
  induction fuel with
  | zero =>
    intro s i hinv hile hfuel
    have := stInv_length_le U s hinv
    omega
  | succ f ih =>
    intro s i hinv hile hfuel
    unfold populateLoop
    split
    · rename_i hlt
      cases hpo : populateOne E s i with
      | error e =>
        constructor
        · intro hc
          injection hc with hc2
          cases hc2
        · intro s2 hs2
          cases hs2
      | ok s1 =>
        obtain ⟨hinv1, hlen1⟩ := populateOne_state U hcl E henv s i s1 hinv hpo
        exact ih s1 (i + 1) hinv1 (by omega) (by omega)
    · constructor
      · intro hc
        cases hc
      · intro s2 hs2
        injection hs2 with h2
        exact h2 ▸ hinv

/-- C3: helper planning terminates, with exactly one helper per distinct
(source, destination) memo key.  For every subterm-closed type universe `U`
covering the model's field types and every starting state satisfying the
memo-table invariant, the populate loop run with fuel exceeding the number
of memo keys `U` can generate never exhausts that fuel (the Go `for` loop,
whose iteration count this fuel bounds, terminates), and the final plan
list has pairwise-distinct memo keys, at most one per reachable pair.
Termination rests on reserve-before-descent: `ensureStructHelper` records
the memo key before any recursive planning, so a re-entrant request for a
pair on a cycle returns the memoized name instead of descending again. -/
theorem helper_planning_terminates (E : GenEnv) (U : List GoType)
    (hcl : subClosed U)
    (henv : ∀ t ∈ envFieldTypes E.env, t ∈ U)
    (s : GenState) (hinv : stInv U s) (fuel : Nat)
    (hfuel : (keyUniverse U).length + 1 ≤ fuel) :
    populateHelpers E fuel s ≠ .error .fuelOut ∧
    ∀ s2, populateHelpers E fuel s = .ok s2 →
      (s2.helperPlans.map planKey).Nodup ∧
      s2.helperPlans.length ≤ (keyUniverse U).length := by
  obtain ⟨h1, h2⟩ := populateLoop_state U hcl E henv fuel s 0 hinv (Nat.zero_le _)
    (by omega)
  exact ⟨h1, fun s2 hs2 => ⟨(h2 s2 hs2).2.2.1, stInv_length_le U s2 (h2 s2 hs2)⟩⟩

/-- Witness for C3 at the pointer cycle `A ⇄ B`: the hypotheses hold for the
concrete universe and root state, so planning terminates there with
distinct memo keys; additionally, on the repository's recursive example
(`envRec`, back-reference field names do not match) the unresolved
back-reference is left as a comment diagnostic, as the specification's
cited example describes. -/
theorem helper_planning_terminates_witness :
    subClosed cycU ∧ (∀ t ∈ envFieldTypes Ecyc.env, t ∈ cycU) ∧ stInv cycU s0cyc ∧
    (keyUniverse cycU).length + 1 ≤ 33 ∧
    (populateHelpers Ecyc 33 s0cyc ≠ .error .fuelOut ∧
     ∀ s2, populateHelpers Ecyc 33 s0cyc = .ok s2 →
       (s2.helperPlans.map planKey).Nodup ∧
       s2.helperPlans.length ≤ (keyUniverse cycU).length) ∧
    (populateHelpers Erec 20 s0rec).map (fun s2 =>
        s2.helperModels.map (fun m => m.body.map (fun n => n.data.kind))) =
      .ok [[.assignDirect, .comment]] ∧
    (populateHelpers Erec 20 s0rec).map (fun s2 =>
        s2.helperModels.map (fun m => m.body.map (fun n => n.data.comment))) =
      .ok [["", "no source field for A"]] :=
  ⟨by decide, by decide, by decide, by decide,
   helper_planning_terminates Ecyc cycU (by decide) (by decide) s0cyc (by decide) 33
     (by decide),
   by decide, by decide⟩

/-- Counterexample to C3's "the cyclic back-reference field is left as a
diagnostic/zero value": on the name-matched pointer cycle (`A.X : *A`,
`B.X : *B`), planning terminates with one populated helper per memo key, and
the cyclic back-reference field `X` is emitted as a `ptrStructMap` node — a
nil-guarded call to the memoized helper `map_Ptr_A_to_Ptr_B` — in both
helper bodies, not as a comment diagnostic or a zero value. -/
theorem cycle_backref_is_memoized_call :
    (populateHelpers Ecyc 33 s0cyc).map (fun s2 =>
        s2.helperPlans.map (fun p => (planKey p, p.populated))) =
      .ok [("A->B", true), ("*A->*B", true)] ∧
    (populateHelpers Ecyc 33 s0cyc).map (fun s2 =>
        s2.helperModels.map (fun m => m.name)) =
      .ok ["map_A_to_B", "map_Ptr_A_to_Ptr_B"] ∧
    (populateHelpers Ecyc 33 s0cyc).map (fun s2 =>
        s2.helperModels.map (fun m => m.body.map (fun n => n.data.kind))) =
      .ok [[.ptrStructMap], [.ptrStructMap]] ∧
    (populateHelpers Ecyc 33 s0cyc).map (fun s2 =>
        s2.helperModels.map (fun m => m.body.map (fun n => n.data.dest))) =
      .ok [["dst.X"], ["dst.X"]] ∧
    (populateHelpers Ecyc 33 s0cyc).map (fun s2 =>
        s2.helperModels.map (fun m => m.body.map (fun n => n.data.helper))) =
      .ok [["map_Ptr_A_to_Ptr_B"], ["map_Ptr_A_to_Ptr_B"]] :=
  ⟨by decide, by decide, by decide, by decide, by decide⟩

end Graft
